import Mathlib

/-
Verification development for the Crania accounting system (Flask + SQLite,
src/app.py, src/models.py).  The ledger/reporting core is shallowly embedded:
SQLAlchemy rows become Lean structures, datetimes become their ISO-format
strings, Python floats become exact rationals (ℚ), and each API handler
becomes a pure function on an explicit `State`.  Python string operations
(`<`, `.strip()`, `.lower()`, slicing) are embedded as character-list
functions with the same semantics as CPython's code-point-wise operations,
and Python's `round(x, 2)` as round-half-up on ℚ (float `round` is
round-half-even on binary floats; amounts at cent granularity agree).
-/

namespace Crania

/-- Python string `<` (lexicographic by code point) on character lists. -/
def charListLt : List Char → List Char → Bool
  | [], [] => false
  | [], _ :: _ => true
  | _ :: _, [] => false
  | a :: as, b :: bs =>
    if a.val < b.val then true else if b.val < a.val then false else charListLt as bs

/-- Python `a < b` on strings. -/
def pyLt (a b : String) : Bool := charListLt a.data b.data

/-- Python `a <= b` on strings (total order, so `a <= b` iff `not (b < a)`). -/
def pyLe (a b : String) : Bool := !(pyLt b a)

/-- Python `s.strip()`: remove leading and trailing whitespace. -/
def pyStrip (s : String) : String :=
  String.mk (((s.data.dropWhile Char.isWhitespace).reverse.dropWhile Char.isWhitespace).reverse)

/-- Python `s[:n]` for strings. -/
def pyTake (n : Nat) (s : String) : String := String.mk (s.data.take n)

/-- Python `s.lower()` (ASCII range; the account-type strings used here are ASCII). -/
def pyLower (s : String) : String := String.mk (s.data.map Char.toLower)

/-- Python `len(s)` for strings. -/
def pyLen (s : String) : Nat := s.data.length

/-- Python `round(x, 2)` under exact rational arithmetic (round half up;
CPython rounds floats half-to-even, identical off half-cent ties). -/
def round2 (x : ℚ) : ℚ := ((⌊x * 100 + 1 / 2⌋ : ℤ) : ℚ) / 100

/-- Python `abs` on ℚ. -/
def qabs (x : ℚ) : ℚ := if x < 0 then -x else x

/-- Python `"%06d" % n` formatting (for the TXN/JE ledger labels). -/
def pad6 (n : Nat) : String :=
  let s := toString n
  String.mk (List.replicate (6 - s.data.length) '0' ++ s.data)

/-- models.Account: `type` is stored as a plain string
("asset"/"liability"/"equity"/"income"/"expense" in well-formed data). -/
structure Account where
  id : Nat
  name : String
  type : String
  code : String
  active : Bool
deriving DecidableEq

/-- models.Transaction (legacy simple two-account form).  `date` is the
datetime's ISO-format string; `debit_account_id`/`credit_account_id` are
nullable foreign keys. -/
structure Transaction where
  id : Nat
  date : String
  description : String
  amount : ℚ
  type : String
  debit_account_id : Option Nat
  credit_account_id : Option Nat
  status : String
  voided_at : Option String
  voided_reason : String
deriving DecidableEq

/-- models.JournalEntry header. -/
structure JournalEntry where
  id : Nat
  date : String
  description : String
  reference : String
  status : String
  voided_at : Option String
  voided_reason : String
deriving DecidableEq

/-- models.JournalLine. -/
structure JournalLine where
  id : Nat
  journal_entry_id : Nat
  account_id : Nat
  debit : ℚ
  credit : ℚ
  memo : String
  tax_rate_id : Option Nat
  tax_amount : ℚ
deriving DecidableEq

/-- models.TaxRate. -/
structure TaxRate where
  id : Nat
  name : String
  rate : ℚ
  active : Bool
deriving DecidableEq

/-- The persistent store: one list per table, in rowid (= id) order, which is
the order unordered SQLAlchemy queries return rows in on SQLite. -/
structure State where
  accounts : List Account
  transactions : List Transaction
  entries : List JournalEntry
  jlines : List JournalLine
  tax_rates : List TaxRate
deriving DecidableEq

/-- A normalized ledger line `(date_str, account_id, debit, credit)` as
produced by `_collect_all_lines`. -/
structure Line where
  date : String
  account_id : Nat
  debit : ℚ
  credit : ℚ
deriving DecidableEq

/-- app._to_date_str: normalize a date to `YYYY-MM-DD` for filtering.
`s = dt.isoformat()[:10]; return s if s and len(s) >= 10 else None`. -/
def to_date_str (d : String) : Option String :=
  let s := pyTake 10 d
  if pyLen s ≥ 10 then some s else none

/-- Filter normalization in `_collect_all_lines`:
`df = (date_from or "").strip() or None`. -/
def normFilter : Option String → Option String
  | none => none
  | some s => let t := pyStrip s; if t = "" then none else some t

/-- The `if df and ds < df: continue` guard (lower bound). -/
def skipLow (f : Option String) (ds : String) : Bool :=
  match f with
  | none => false
  | some b => pyLt ds b

/-- The `if dt and ds > dt: continue` guard (upper bound, also used for as_of). -/
def skipHigh (f : Option String) (ds : String) : Bool :=
  match f with
  | none => false
  | some b => pyLt b ds

/-- Python truthiness of a nullable integer id column (`if t.debit_account_id:`):
false for NULL and for 0. -/
def truthyId : Option Nat → Bool
  | none => false
  | some a => a != 0

/-- The transaction branch of app._collect_all_lines: a non-void transaction
with a valid in-window date emits a debit line of `amount` against
`debit_account_id` (if truthy) and a credit line against `credit_account_id`
(if truthy).  `df`/`dt`/`ao` are the already-normalized filters. -/
def collectTxnLines (df dt ao : Option String) (t : Transaction) : List Line :=
  if t.status = "void" then [] else
  match to_date_str t.date with
  | none => []
  | some ds =>
    if skipLow df ds then [] else
    if skipHigh dt ds then [] else
    if skipHigh ao ds then [] else
    (if truthyId t.debit_account_id then [⟨ds, t.debit_account_id.getD 0, t.amount, 0⟩] else [])
      ++ (if truthyId t.credit_account_id then [⟨ds, t.credit_account_id.getD 0, 0, t.amount⟩] else [])

/-- The journal-line branch of app._collect_all_lines: a line of a non-void
entry with a valid in-window date is emitted verbatim provided debit or
credit is nonzero (`if d or c`). -/
def collectJlLines (df dt ao : Option String) (je : JournalEntry) (jl : JournalLine) : List Line :=
  if je.status = "void" then [] else
  match to_date_str je.date with
  | none => []
  | some ds =>
    if skipLow df ds then [] else
    if skipHigh dt ds then [] else
    if skipHigh ao ds then [] else
    if jl.debit ≠ 0 ∨ jl.credit ≠ 0 then [⟨ds, jl.account_id, jl.debit, jl.credit⟩] else []

/-- app._collect_all_lines.  The source iterates the journal-line join in
(entry.date, entry.id, line.id) order; the consumers of this list aggregate
order-independently (and the general ledger applies its own sort), so the
join is modelled in stored order, with the inner join realized by `find?`
on the entry id. -/
def collect_all_lines (s : State) (date_from date_to as_of : Option String) : List Line :=
  let df := normFilter date_from
  let dt := normFilter date_to
  let ao := normFilter as_of
  s.transactions.flatMap (collectTxnLines df dt ao) ++
    s.jlines.flatMap (fun jl =>
      match s.entries.find? (fun je => je.id == jl.journal_entry_id) with
      | none => []
      | some je => collectJlLines df dt ao je jl)

/-- The `if account_ids is not None and aid not in account_ids: continue`
filter of app._account_balances. -/
def filterLines (account_ids : Option (List Nat)) (lines : List Line) : List Line :=
  match account_ids with
  | none => lines
  | some ids => lines.filter (fun l => ids.contains l.account_id)

/-- The per-account debit accumulation `debits[aid] += d` of
app._account_balances, as a left fold over the lines. -/
def dAcc (lines : List Line) (aid : Nat) : ℚ :=
  lines.foldl (fun acc l => if l.account_id = aid then acc + l.debit else acc) 0

/-- The per-account credit accumulation `credits[aid] += c`. -/
def cAcc (lines : List Line) (aid : Nat) : ℚ :=
  lines.foldl (fun acc l => if l.account_id = aid then acc + l.credit else acc) 0

/-- The key set `set(debits) | set(credits)`: every processed line adds a key
to both defaultdicts, so the keys are exactly the account ids appearing in
the (filtered) lines. -/
def keyset : List Nat → List Nat
  | [] => []
  | a :: l => if a ∈ l then keyset l else a :: keyset l

/-- Account ids appearing in a line list. -/
def appearingIds (lines : List Line) : List Nat := keyset (lines.map (fun l => l.account_id))

/-- `acc_map.get(aid)` followed by `.type`, with the source's `"asset"`
default for an unknown account id. -/
def acctType (s : State) (aid : Nat) : String :=
  match s.accounts.find? (fun a => a.id == aid) with
  | some a => a.type
  | none => "asset"

/-- `acc_map.get(aid)` followed by `.type`, with no default (used by report
loops that skip unknown accounts). -/
def typeOfFound (s : State) (aid : Nat) : Option String :=
  (s.accounts.find? (fun a => a.id == aid)).map (fun a => a.type)

/-- Debit-normal account types: `atype in ("asset", "expense")`. -/
def debitNormal (ty : String) : Bool := ty == "asset" || ty == "expense"

/-- app._account_balances as a finite map `{account_id: balance}`, modelled
as a function to `Option ℚ`: `some` exactly on the ids appearing in the
filtered lines. -/
def account_balances (s : State) (lines : List Line) (account_ids : Option (List Nat)) :
    Nat → Option ℚ := fun aid =>
  let fl := filterLines account_ids lines
  if aid ∈ appearingIds fl then
    some (if debitNormal (acctType s aid) then dAcc fl aid - cAcc fl aid
          else cAcc fl aid - dAcc fl aid)
  else none

/-- Specification-side total debit of an account: sum over the lines that
mention it (the theorems below identify the fold `dAcc` with this sum). -/
def lineSumD (lines : List Line) (aid : Nat) : ℚ :=
  ((lines.filter (fun l => l.account_id == aid)).map (fun l => l.debit)).sum

/-- Specification-side total credit of an account. -/
def lineSumC (lines : List Line) (aid : Nat) : ℚ :=
  ((lines.filter (fun l => l.account_id == aid)).map (fun l => l.credit)).sum

/-- Sum of aggregator balances over the appearing accounts of one type
(the bucket totals of the dashboard / balance-sheet / income-statement,
which look each id up in `acc_map` and skip missing ones). -/
def sumBalType (s : State) (lines : List Line) (ty : String) : ℚ :=
  (((appearingIds lines).filter (fun aid => typeOfFound s aid == some ty)).map
    (fun aid => (account_balances s lines none aid).getD 0)).sum

/-- Per-entry total debit of the stored journal lines of entry `jeId`. -/
def entrySumD (s : State) (jeId : Nat) : ℚ :=
  ((s.jlines.filter (fun jl => jl.journal_entry_id == jeId)).map (fun jl => jl.debit)).sum

/-- Per-entry total credit of the stored journal lines of entry `jeId`. -/
def entrySumC (s : State) (jeId : Nat) : ℚ :=
  ((s.jlines.filter (fun jl => jl.journal_entry_id == jeId)).map (fun jl => jl.credit)).sum

/-- The `if date_from and (dt and ds < date_from): continue` guard of
app._general_ledger_data: an empty filter string is falsy, and the date is
non-null in well-formed rows (the column is NOT NULL). -/
def glSkipLow (f : Option String) (ds : String) : Bool :=
  match f with
  | none => false
  | some b => !(b == "") && pyLt ds b

/-- The `if date_to and (dt and ds > date_to): continue` guard. -/
def glSkipHigh (f : Option String) (ds : String) : Bool :=
  match f with
  | none => false
  | some b => !(b == "") && pyLt b ds

/-- One raw general-ledger row before sorting/running balance:
`{date, txn_id, description, debit, credit}`. -/
structure GLEntry where
  date : String
  txn_id : String
  description : String
  debit : ℚ
  credit : ℚ
deriving DecidableEq

/-- A general-ledger row with the running balance attached. -/
structure GLOut where
  date : String
  txn_id : String
  description : String
  debit : ℚ
  credit : ℚ
  balance : ℚ
deriving DecidableEq

/-- Stable insertion into a sorted list: `a` goes in front of the first
element `b` with `le a b`, so equal keys keep their original order (the
stability guarantee of Python's `list.sort`). -/
def insertLe {α : Type} (le : α → α → Bool) (a : α) : List α → List α
  | [] => [a]
  | b :: l => if le a b then a :: b :: l else b :: insertLe le a l

/-- Stable insertion sort, modelling Python's stable `list.sort(key=...)`. -/
def sortLe {α : Type} (le : α → α → Bool) : List α → List α
  | [] => []
  | a :: l => insertLe le a (sortLe le l)

/-- The transaction rows of app._general_ledger_data: transactions touching
the account, non-void, date in range (string prefix comparison), one row per
transaction carrying its debit and/or credit side.  Transactions are stored
and queried in (date, id) order; distinct transactions never tie on the
final (date, label) sort key, so stored order is used here. -/
def glTxnRows (s : State) (aid : Nat) (df dt : Option String) : List GLEntry :=
  (s.transactions.filter
      (fun t => t.debit_account_id == some aid || t.credit_account_id == some aid)).filterMap
    (fun t =>
      if t.status = "void" then none else
      if glSkipLow df (pyTake 10 t.date) then none else
      if glSkipHigh dt (pyTake 10 t.date) then none else
      some ⟨t.date, "TXN-" ++ pad6 t.id, t.description,
        (if t.debit_account_id == some aid then t.amount else 0),
        (if t.credit_account_id == some aid then t.amount else 0)⟩)

/-- The (entry.date, entry.id, line.id) lexicographic order of the journal
join in app._general_ledger_data. -/
def jeJlLe (a b : JournalEntry × JournalLine) : Bool :=
  pyLt a.1.date b.1.date ||
    (a.1.date == b.1.date &&
      (a.1.id < b.1.id || (a.1.id == b.1.id && a.2.id ≤ b.2.id)))

/-- The journal rows of app._general_ledger_data: lines of the account joined
to their entry, ordered by (entry.date, entry.id, line.id), non-void entries
with in-range dates; the row description is `jl.memo or je.description`. -/
def glJlRows (s : State) (aid : Nat) (df dt : Option String) : List GLEntry :=
  (sortLe jeJlLe
      ((s.jlines.filter (fun jl => jl.account_id == aid)).filterMap
        (fun jl => (s.entries.find? (fun je => je.id == jl.journal_entry_id)).map
          (fun je => (je, jl))))).filterMap
    (fun p =>
      if p.1.status = "void" then none else
      if glSkipLow df (pyTake 10 p.1.date) then none else
      if glSkipHigh dt (pyTake 10 p.1.date) then none else
      some ⟨p.1.date, "JE-" ++ pad6 p.1.id,
        (if p.2.memo == "" then p.1.description else p.2.memo), p.2.debit, p.2.credit⟩)

/-- The final `raw.sort(key=lambda e: (e["date"] or "", e["txn_id"]))`
comparison (dates are non-null in the model, mirroring the NOT NULL column). -/
def glLe (a b : GLEntry) : Bool :=
  pyLt a.date b.date || (a.date == b.date && pyLe a.txn_id b.txn_id)

/-- The running-balance loop of app._general_ledger_data: `running` advances
by debit−credit (debit-normal) or credit−debit, and each emitted row shows
`round(running, 2)`. -/
def glGo (norm : Bool) (acc : ℚ) : List GLEntry → List GLOut
  | [] => []
  | e :: es =>
    let r := acc + (if norm then e.debit - e.credit else e.credit - e.debit)
    ⟨e.date, e.txn_id, e.description, e.debit, e.credit, round2 r⟩ :: glGo norm r es

/-- Result of app._general_ledger_data. -/
structure GLData where
  account : Option Account
  entries : List GLOut
deriving DecidableEq

/-- app._general_ledger_data: guard on a falsy/unknown account id, collect
raw rows from both sources, sort by (date, label), fold the running balance. -/
def general_ledger_data (s : State) (aid : Nat) (df dt : Option String) : GLData :=
  if aid = 0 then ⟨none, []⟩ else
  match s.accounts.find? (fun a => a.id == aid) with
  | none => ⟨none, []⟩
  | some acc =>
    ⟨some acc,
      glGo (debitNormal acc.type) 0 (sortLe glLe (glTxnRows s aid df dt ++ glJlRows s aid df dt))⟩

/-- One income-statement row. -/
structure ISRow where
  code : String
  name : String
  balance : ℚ
deriving DecidableEq

/-- Result of app._income_statement_data (the constant tax fields are
omitted: the source always reports `tax_collected = tax_paid = 0.0`). -/
structure ISData where
  revenue_accounts : List ISRow
  expense_accounts : List ISRow
  total_revenue : ℚ
  total_expenses : ℚ
  net_income : ℚ
deriving DecidableEq

/-- The row-selection loop of app._income_statement_data for one account
type: appearing accounts that exist in the chart, have that type, and have a
strictly positive aggregated balance. -/
def isPick (s : State) (lines : List Line) (ty : String) : List Nat :=
  (appearingIds lines).filter
    (fun aid => typeOfFound s aid == some ty &&
      decide (0 < (account_balances s lines none aid).getD 0))

/-- The `(x["code"], x["name"])` sort key of the income statement rows. -/
def isRowLe (a b : ISRow) : Bool :=
  pyLt a.code b.code || (a.code == b.code && pyLe a.name b.name)

/-- The rows of one side of the income statement: selected accounts rendered
as `{code, name, round(balance, 2)}` and sorted by (code, name). -/
def isRows (s : State) (lines : List Line) (ty : String) : List ISRow :=
  sortLe isRowLe
    ((isPick s lines ty).filterMap (fun aid =>
      match s.accounts.find? (fun a => a.id == aid) with
      | some a => some ⟨a.code, a.name, round2 ((account_balances s lines none aid).getD 0)⟩
      | none => none))

/-- The unrounded total of one side of the income statement, accumulated
over exactly the selected (filtered) accounts. -/
def isTotal (s : State) (lines : List Line) (ty : String) : ℚ :=
  ((isPick s lines ty).map (fun aid => (account_balances s lines none aid).getD 0)).sum

/-- app._income_statement_data: aggregate the ranged lines, keep only
income/expense accounts with strictly positive balance, total after the
filter, and report `net_income = round(total_revenue - total_expenses, 2)`. -/
def income_statement_data (s : State) (df dt : Option String) : ISData :=
  let lines := collect_all_lines s df dt none
  ⟨isRows s lines "income", isRows s lines "expense",
    round2 (isTotal s lines "income"), round2 (isTotal s lines "expense"),
    round2 (isTotal s lines "income" - isTotal s lines "expense")⟩

/-- The JSON payload of `POST /add`: `amount = none` models a value
`float()` raises on (non-numeric); a missing amount arrives as `some 0`
(`data.get("amount", 0)`). -/
structure TxnInput where
  description : String
  amount : Option ℚ
  type : Option String
deriving DecidableEq

/-- The cash-account convention used by `add_transaction` and
`api_journal_post`: the first row with code "1000" (any type), falling back
to the first asset-type row in table order
(`Account.query.filter(Account.code == "1000").first() or
Account.query.filter(Account.type == "asset").first()`). -/
def resolvedCash (s : State) : Option Account :=
  match s.accounts.find? (fun a => a.code == "1000") with
  | some a => some a
  | none => s.accounts.find? (fun a => a.type == "asset")

/-- app.add_transaction (`POST /add`): rejects a non-numeric amount, rejects
nothing else; resolves cash/income/expense accounts by convention and
persists one transaction row.  `now` is the current UTC timestamp used for
the defaulted date; `newId` the autoincrement id.  An error return leaves
the store untouched (the handler returns before any `db.session.add`). -/
def add_transaction (now : String) (newId : Nat) (s : State) (inp : TxnInput) :
    Except String (State × Transaction) :=
  let description := pyStrip inp.description
  match inp.amount with
  | none => .error "Invalid amount"
  | some amount =>
    let ty0 := match inp.type with
      | none => "expense"
      | some t => if t = "" then "expense" else pyLower t
    let txn_type := if ty0 = "income" ∨ ty0 = "expense" then ty0 else "expense"
    match resolvedCash s, s.accounts.find? (fun a => a.type == "income"),
        s.accounts.find? (fun a => a.type == "expense") with
    | some cash, some income, some expenses =>
      let debit_account_id := if txn_type = "income" then cash.id else expenses.id
      let credit_account_id := if txn_type = "income" then income.id else cash.id
      let txn : Transaction :=
        ⟨newId, now, description, amount, txn_type,
          some debit_account_id, some credit_account_id, "posted", none, ""⟩
      .ok ({ s with transactions := s.transactions ++ [txn] }, txn)
    | _, _, _ => .error "Default accounts missing"

/-- One submitted line of `POST /api/transactions/journal`; missing/null
debit or credit arrives as 0 (`float(l.get("debit", 0) or 0)`). -/
structure JLineInput where
  account_id : Option Nat
  debit : ℚ
  credit : ℚ
  memo : String
deriving DecidableEq

/-- A parsed journal line as held in the handler's `lines` list. -/
structure PLine where
  account_id : Nat
  debit : ℚ
  credit : ℚ
  memo : String
deriving DecidableEq

/-- The JSON payload of `POST /api/transactions/journal`. -/
structure JournalInput where
  description : String
  reference : String
  date : Option String
  tax_rate_id : Option Nat
  lines : List JLineInput
deriving DecidableEq

/-- The line-parsing loop of api_journal_post: lines whose `account_id` is
falsy (absent, null or 0) are silently skipped; the rest keep their raw
debit/credit and a stripped memo. -/
def parseLines (ls : List JLineInput) : List PLine :=
  ls.filterMap (fun l =>
    match l.account_id with
    | none => none
    | some a => if a = 0 then none else some ⟨a, l.debit, l.credit, pyStrip l.memo⟩)

/-- `total_d = sum(l["debit"] for l in lines)`. -/
def pSumD (ls : List PLine) : ℚ := (ls.map (fun l => l.debit)).sum

/-- `total_c = sum(l["credit"] for l in lines)`. -/
def pSumC (ls : List PLine) : ℚ := (ls.map (fun l => l.credit)).sum

/-- Total debit one account receives from a proposed line set. -/
def pAcctD (ls : List PLine) (aid : Nat) : ℚ :=
  ((ls.filter (fun l => l.account_id == aid)).map (fun l => l.debit)).sum

/-- Total credit one account receives from a proposed line set. -/
def pAcctC (ls : List PLine) (aid : Nat) : ℚ :=
  ((ls.filter (fun l => l.account_id == aid)).map (fun l => l.credit)).sum

/-- The balance an account would show from a proposed line set alone, under
the normal-balance convention of app._account_balances. -/
def pBal (accounts : List Account) (ls : List PLine) (aid : Nat) : ℚ :=
  let ty := match accounts.find? (fun a => a.id == aid) with
    | some a => a.type
    | none => "asset"
  if debitNormal ty then pAcctD ls aid - pAcctC ls aid else pAcctC ls aid - pAcctD ls aid

/-- `acc_map.get(l["account_id"])` followed by `.type` in the tax loop. -/
def typeOfAcc (accounts : List Account) (aid : Nat) : Option String :=
  (accounts.find? (fun a => a.id == aid)).map (fun a => a.type)

/-- The tax-surcharge block of api_journal_post: with `rate = tr.rate / 100`,
`income_taxable` sums the credits of income-type lines and
`expense_taxable` the debits of expense-type lines; each rounded tax amount
above 0.01 appends a self-balancing (tax account, cash account) line pair. -/
def taxAugment (accounts : List Account) (taxA cashA : Account) (trName : String)
    (rate100 : ℚ) (lines : List PLine) : List PLine :=
  let rate := rate100 / 100
  let income_taxable := lines.foldl
    (fun acc l => if typeOfAcc accounts l.account_id = some "income" then acc + l.credit else acc) 0
  let expense_taxable := lines.foldl
    (fun acc l => if typeOfAcc accounts l.account_id = some "expense" then acc + l.debit else acc) 0
  let inc_tax := round2 (income_taxable * rate)
  let exp_tax := round2 (expense_taxable * rate)
  lines
    ++ (if 1 / 100 < inc_tax then
          [⟨taxA.id, 0, inc_tax, trName⟩, ⟨cashA.id, inc_tax, 0, trName⟩] else [])
    ++ (if 1 / 100 < exp_tax then
          [⟨taxA.id, exp_tax, 0, trName⟩, ⟨cashA.id, 0, exp_tax, trName⟩] else [])

/-- The persistence loop of api_journal_post: one JournalLine row per line
with a truthy account id, ids assigned in insertion order from `base`. -/
def mkJLines (jeId base : Nat) : List PLine → List JournalLine
  | [] => []
  | l :: ls =>
    if l.account_id = 0 then mkJLines jeId base ls
    else ⟨base, jeId, l.account_id, l.debit, l.credit, pyStrip l.memo, none, 0⟩
      :: mkJLines jeId (base + 1) ls

/-- The guarded tax-surcharge application of api_journal_post: the surcharge
runs only when the submitted tax_rate_id is truthy and resolves to a stored
rate and both the tax (code "2300") and cash accounts exist; otherwise the
proposed lines pass through unchanged. -/
def taxLines (s : State) (tax_rate_id : Option Nat) (lines : List PLine) : List PLine :=
  match tax_rate_id, s.accounts.find? (fun a => a.code == "2300"), resolvedCash s with
  | some rid, some taxA, some cashA =>
    if rid = 0 then lines
    else
      match s.tax_rates.find? (fun r => r.id == rid) with
      | some tr => taxAugment s.accounts taxA cashA tr.name tr.rate lines
      | none => lines
  | _, _, _ => lines

/-- app.api_journal_post (`POST /api/transactions/journal`): validates the
description, the parsed line count (≥ 2) and the debit/credit balance
(|Σd − Σc| ≤ 0.01), applies the tax surcharge when a truthy tax_rate_id
resolves and the tax (code "2300") and cash accounts exist, then persists
the entry and all its lines.  `now` models `datetime.utcnow()` (also the
fallback for an absent date); an error return leaves the store untouched. -/
def api_journal_post (now : String) (jeId lineBase : Nat) (s : State) (inp : JournalInput) :
    Except String (State × Nat) :=
  let desc := pyStrip inp.description
  if desc = "" then .error "Description required" else
  let txn_date := match inp.date with
    | some d => d
    | none => now
  let lines := parseLines inp.lines
  if lines.length < 2 then .error "At least 2 lines required" else
  if 1 / 100 < qabs (pSumD lines - pSumC lines) then .error "Debits must equal credits" else
  let lines2 := taxLines s inp.tax_rate_id lines
  let je : JournalEntry := ⟨jeId, txn_date, desc, pyStrip inp.reference, "posted", none, ""⟩
  .ok ({ s with
          entries := s.entries ++ [je]
          jlines := s.jlines ++ mkJLines jeId lineBase lines2 }, jeId)

/-- app.api_void_transaction (`POST /api/transactions/<kind>-<id>/void`):
looks the row up by primary key (404 when absent) and unconditionally sets
`status = "void"`, `voided_at = now`, `voided_reason = reason` — also on a
row that is already void. -/
def api_void_transaction (now : String) (s : State) (kind : String) (tid : Nat)
    (reason : String) : Except String State :=
  if kind = "T" then
    match s.transactions.find? (fun t => t.id == tid) with
    | none => .error "Not found"
    | some _ => .ok { s with transactions := s.transactions.map (fun t =>
        if t.id = tid then
          { t with
              status := "void"
              voided_at := some now
              voided_reason := reason }
        else t) }
  else if kind = "JE" then
    match s.entries.find? (fun je => je.id == tid) with
    | none => .error "Not found"
    | some _ => .ok { s with entries := s.entries.map (fun je =>
        if je.id = tid then
          { je with
              status := "void"
              voided_at := some now
              voided_reason := reason }
        else je) }
  else .error "Invalid type"

/-- Specification-side window test for a `YYYY-MM-DD` date string: every
supplied bound holds inclusively under lexicographic string comparison
(`date_from ≤ d`, `d ≤ date_to`, `d ≤ as_of`). -/
def inWindowB (df dt ao : Option String) (d : String) : Bool :=
  (match df with
    | none => true
    | some b => pyLe b d) &&
  (match dt with
    | none => true
    | some b => pyLe d b) &&
  (match ao with
    | none => true
    | some b => pyLe d b)

/-- A small chart of accounts for the concrete verification states below. -/
def exAccounts : List Account :=
  [⟨1, "Cash", "asset", "1000", true⟩,
   ⟨2, "Sales Revenue", "income", "4000", true⟩,
   ⟨3, "Sales Tax Payable", "liability", "2300", true⟩,
   ⟨4, "Owner Equity", "equity", "3000", true⟩,
   ⟨5, "Rent Expense", "expense", "6500", true⟩]

/-- A populated store: one simple income transaction (cash 250 / revenue 250)
and one balanced journal entry (rent 100 / cash 100). -/
def exState : State :=
  { accounts := exAccounts
    transactions :=
      [⟨1, "2024-01-05T00:00:00", "Sale", 250, "income", some 1, some 2, "posted", none, ""⟩]
    entries := [⟨1, "2024-01-10T00:00:00", "Rent", "", "posted", none, ""⟩]
    jlines :=
      [⟨1, 1, 5, 100, 0, "", none, 0⟩, ⟨2, 1, 1, 0, 100, "", none, 0⟩]
    tax_rates := [⟨2, "HST (13%)", 13, true⟩] }

/-- A store holding one debit-normal account with journal activity
(debit 100, credit 30, and an all-zero line) on a single entry. -/
def glState : State :=
  { accounts := [⟨1, "Cash", "asset", "1000", true⟩]
    transactions := []
    entries := [⟨1, "2024-02-01T00:00:00", "Adjustments", "", "posted", none, ""⟩]
    jlines :=
      [⟨1, 1, 1, 100, 0, "", none, 0⟩, ⟨2, 1, 1, 0, 30, "", none, 0⟩,
       ⟨3, 1, 1, 0, 0, "", none, 0⟩]
    tax_rates := [] }

/-- A chart with no code-"1000" account whose first asset row (id 1, code
"2000") is not the lowest-code asset row (id 2, code "0500"). -/
def oddState : State :=
  { accounts :=
      [⟨1, "Petty Cash", "asset", "2000", true⟩,
       ⟨2, "Vault", "asset", "0500", true⟩,
       ⟨3, "Revenue", "income", "4000", true⟩,
       ⟨4, "Misc Expense", "expense", "6000", true⟩]
    transactions := []
    entries := []
    jlines := []
    tax_rates := [] }

/-- A store whose transaction 1 and journal entry 1 are already void. -/
def voidState : State :=
  { accounts := []
    transactions :=
      [⟨1, "2024-01-05T00:00:00", "Old", 10, "expense", some 1, some 2, "void",
        some "2024-02-01T00:00:00", "duplicate"⟩]
    entries :=
      [⟨1, "2024-01-06T00:00:00", "Adj", "", "void", some "2024-02-01T00:00:00", "duplicate"⟩]
    jlines := []
    tax_rates := [] }

section Lemmas

/-- A ℚ-valued map-sum distributes over pointwise addition. -/
theorem sum_map_add {α : Type} (l : List α) (f g : α → ℚ) :
    (l.map (fun x => f x + g x)).sum = (l.map f).sum + (l.map g).sum := by
  induction l with
  | nil => simp
  | cons x xs ih => simp [ih]; ring

/-- A ℚ-valued map-sum distributes over pointwise subtraction. -/
theorem sum_map_sub {α : Type} (l : List α) (f g : α → ℚ) :
    (l.map (fun x => f x - g x)).sum = (l.map f).sum - (l.map g).sum := by
  induction l with
  | nil => simp
  | cons x xs ih => simp [ih]; ring

/-- The accumulating folds of app._account_balances compute initial value
plus the filtered sum. -/
theorem foldl_acc_eq {f : Line → ℚ} (l : List Line) (aid : Nat) (init : ℚ) :
    l.foldl (fun acc x => if x.account_id = aid then acc + f x else acc) init
      = init + ((l.filter (fun x => x.account_id == aid)).map f).sum := by
  induction l generalizing init with
  | nil => simp
  | cons x xs ih =>
    by_cases h : x.account_id = aid
    · simp [h, ih, add_assoc]
    · simp [h, ih]

/-- `dAcc` is the total debit of the account over the lines. -/
theorem dAcc_eq (l : List Line) (aid : Nat) : dAcc l aid = lineSumD l aid := by
  simpa [dAcc, lineSumD] using foldl_acc_eq l aid 0

/-- `cAcc` is the total credit of the account over the lines. -/
theorem cAcc_eq (l : List Line) (aid : Nat) : cAcc l aid = lineSumC l aid := by
  simpa [cAcc, lineSumC] using foldl_acc_eq l aid 0

/-- Membership in `keyset` is membership in the underlying list. -/
theorem mem_keyset {a : Nat} : ∀ {l : List Nat}, a ∈ keyset l ↔ a ∈ l := by
  intro l
  induction l with
  | nil => simp [keyset]
  | cons b bs ih =>
    by_cases h : b ∈ bs
    · simp [keyset, h, ih]
      intro hab
      exact hab ▸ h
    · simp [keyset, h, ih, List.mem_cons]

/-- `keyset` has no duplicates. -/
theorem nodup_keyset : ∀ (l : List Nat), (keyset l).Nodup := by
  intro l
  induction l with
  | nil => simp [keyset]
  | cons b bs ih =>
    by_cases h : b ∈ bs
    · simpa [keyset, h] using ih
    · simp [keyset, h, ih, mem_keyset]

/-- An id appears in `appearingIds` iff some line mentions it. -/
theorem mem_appearingIds {aid : Nat} {lines : List Line} :
    aid ∈ appearingIds lines ↔ ∃ l ∈ lines, l.account_id = aid := by
  simp [appearingIds, mem_keyset, List.mem_map, eq_comm]

/-- An account not mentioned by any line has zero total debit. -/
theorem lineSumD_eq_zero {aid : Nat} {lines : List Line}
    (h : aid ∉ appearingIds lines) : lineSumD lines aid = 0 := by
  have hnil : lines.filter (fun x => x.account_id == aid) = [] := by
    rw [List.filter_eq_nil_iff]
    intro x hx
    simp only [beq_iff_eq]
    intro hax
    exact h (mem_appearingIds.mpr ⟨x, hx, hax⟩)
  simp [lineSumD, hnil]

/-- An account not mentioned by any line has zero total credit. -/
theorem lineSumC_eq_zero {aid : Nat} {lines : List Line}
    (h : aid ∉ appearingIds lines) : lineSumC lines aid = 0 := by
  have hnil : lines.filter (fun x => x.account_id == aid) = [] := by
    rw [List.filter_eq_nil_iff]
    intro x hx
    simp only [beq_iff_eq]
    intro hax
    exact h (mem_appearingIds.mpr ⟨x, hx, hax⟩)
  simp [lineSumC, hnil]

end Lemmas

section BalanceSpec

/-- Characterization of app._account_balances: defined on exactly the
appearing ids of the filtered lines, with the normal-balance value. -/
theorem account_balances_spec (s : State) (lines : List Line)
    (ids : Option (List Nat)) (aid : Nat) :
    account_balances s lines ids aid =
      if aid ∈ appearingIds (filterLines ids lines) then
        some (if debitNormal (acctType s aid)
          then lineSumD (filterLines ids lines) aid - lineSumC (filterLines ids lines) aid
          else lineSumC (filterLines ids lines) aid - lineSumD (filterLines ids lines) aid)
      else none := by
  simp only [account_balances, dAcc_eq, cAcc_eq]

/-- On an appearing id the balance map yields the signed value. -/
theorem account_balances_getD (s : State) (lines : List Line) (aid : Nat)
    (h : aid ∈ appearingIds lines) :
    (account_balances s lines none aid).getD 0 =
      (if debitNormal (acctType s aid)
        then lineSumD lines aid - lineSumC lines aid
        else lineSumC lines aid - lineSumD lines aid) := by
  rw [account_balances_spec]
  simp [filterLines, h]

end BalanceSpec

section Partition

variable {α : Type}

/-- Filtered map-sum over a cons. -/
theorem filter_sum_cons (keyf : α → Nat) (f : α → ℚ) (x : α) (xs : List α) (k : Nat) :
    (((x :: xs).filter (fun y => keyf y == k)).map f).sum
      = (if keyf x = k then f x else 0)
        + ((xs.filter (fun y => keyf y == k)).map f).sum := by
  by_cases h : keyf x = k <;> simp [List.filter_cons, h]

/-- Sum of a point indicator over a list not containing the point. -/
theorem sum_ite_not_mem (k0 : Nat) (c : ℚ) :
    ∀ (dom : List Nat), k0 ∉ dom → (dom.map (fun k => if k0 = k then c else 0)).sum = 0 := by
  intro dom
  induction dom with
  | nil => simp
  | cons d ds ih =>
    intro h
    have h1 : k0 ≠ d := fun hh => h (hh ▸ List.mem_cons_self d ds)
    have h2 : k0 ∉ ds := fun hh => h (List.mem_cons_of_mem d hh)
    simp [h1, ih h2]

/-- Sum of a point indicator over a duplicate-free list containing the point. -/
theorem sum_ite_mem (k0 : Nat) (c : ℚ) :
    ∀ (dom : List Nat), dom.Nodup → k0 ∈ dom →
      (dom.map (fun k => if k0 = k then c else 0)).sum = c := by
  intro dom
  induction dom with
  | nil => simp
  | cons d ds ih =>
    intro hnd hmem
    rcases List.mem_cons.mp hmem with h | h
    · have hd : d ∉ ds := (List.nodup_cons.mp hnd).1
      simp [h, sum_ite_not_mem d c ds hd]
    · have h1 : k0 ≠ d := by
        intro hh
        exact (List.nodup_cons.mp hnd).1 (hh ▸ h)
      simp [h1, ih (List.nodup_cons.mp hnd).2 h]

/-- Partition of a ℚ-valued sum by a key function: summing the per-key
filtered totals over a duplicate-free key domain covering the list gives the
total sum. -/
theorem sum_partition (keyf : α → Nat) (f : α → ℚ) :
    ∀ (l : List α) (dom : List Nat), dom.Nodup → (∀ x ∈ l, keyf x ∈ dom) →
      (dom.map (fun k => ((l.filter (fun y => keyf y == k)).map f).sum)).sum
        = (l.map f).sum := by
  intro l
  induction l with
  | nil => intro dom _ _; simp
  | cons x xs ih =>
    intro dom hnd hcov
    have hx : keyf x ∈ dom := hcov x (List.mem_cons_self x xs)
    have hxs : ∀ y ∈ xs, keyf y ∈ dom := fun y hy => hcov y (List.mem_cons_of_mem x hy)
    calc (dom.map (fun k => (((x :: xs).filter (fun y => keyf y == k)).map f).sum)).sum
        = (dom.map (fun k => (if keyf x = k then f x else 0)
            + ((xs.filter (fun y => keyf y == k)).map f).sum)).sum := by
          simp only [filter_sum_cons]
      _ = (dom.map (fun k => if keyf x = k then f x else 0)).sum
            + (dom.map (fun k => ((xs.filter (fun y => keyf y == k)).map f).sum)).sum := by
          rw [sum_map_add]
      _ = f x + (xs.map f).sum := by
          rw [sum_ite_mem (keyf x) (f x) dom hnd hx, ih dom hnd hxs]
      _ = ((x :: xs).map f).sum := by simp

end Partition

section AccountingEquation

/-- Summing each appearing account's net debit over the appearing ids gives
the net debit of the whole line list. -/
theorem sum_net_eq (lines : List Line) :
    ((appearingIds lines).map (fun aid => lineSumD lines aid - lineSumC lines aid)).sum
      = (lines.map (fun l => l.debit - l.credit)).sum := by
  rw [← sum_partition (fun l : Line => l.account_id) (fun l => l.debit - l.credit) lines
      (appearingIds lines) (nodup_keyset _)
      (fun x hx => mem_appearingIds.mpr ⟨x, hx, rfl⟩)]
  apply congrArg List.sum
  apply List.map_congr_left
  intro aid _
  rw [sum_map_sub]
  rfl

/-- `typeOfFound` determines `acctType`. -/
theorem acctType_of_typeOfFound {s : State} {aid : Nat} {ty : String}
    (h : typeOfFound s aid = some ty) : acctType s aid = ty := by
  unfold typeOfFound at h
  unfold acctType
  cases hf : s.accounts.find? (fun a => a.id == aid) with
  | none => rw [hf] at h; simp at h
  | some a => rw [hf] at h; simp at h; exact h

/-- Balance value of a debit-normal account: total debit minus total credit
(also for an account with no activity, where both sides are zero). -/
theorem bval_debit_normal (s : State) (lines : List Line) (aid : Nat)
    (h : debitNormal (acctType s aid) = true) :
    (account_balances s lines none aid).getD 0 = lineSumD lines aid - lineSumC lines aid := by
  by_cases hm : aid ∈ appearingIds lines
  · rw [account_balances_getD s lines aid hm, if_pos h]
  · rw [account_balances_spec]
    simp [filterLines, hm, lineSumD_eq_zero hm, lineSumC_eq_zero hm]

/-- Balance value of a credit-normal account: total credit minus total debit. -/
theorem bval_credit_normal (s : State) (lines : List Line) (aid : Nat)
    (h : debitNormal (acctType s aid) = false) :
    (account_balances s lines none aid).getD 0 = lineSumC lines aid - lineSumD lines aid := by
  by_cases hm : aid ∈ appearingIds lines
  · rw [account_balances_getD s lines aid hm, if_neg (by simp [h])]
  · rw [account_balances_spec]
    simp [filterLines, hm, lineSumD_eq_zero hm, lineSumC_eq_zero hm]

/-- Filtered map-sum over a cons, for an arbitrary Boolean predicate. -/
theorem filter_pred_sum_cons {α : Type} (p : α → Bool) (f : α → ℚ) (x : α) (xs : List α) :
    (((x :: xs).filter p).map f).sum = (if p x then f x else 0) + ((xs.filter p).map f).sum := by
  by_cases h : p x <;> simp [List.filter_cons, h]

/-- The five type buckets of the aggregator output combine, with the
credit-normal buckets negated, into the total net debit of the lines. -/
theorem bucket_split (s : State) (lines : List Line) :
    ∀ dom : List Nat,
      (∀ aid ∈ dom, typeOfFound s aid = some "asset" ∨ typeOfFound s aid = some "liability" ∨
        typeOfFound s aid = some "equity" ∨ typeOfFound s aid = some "income" ∨
        typeOfFound s aid = some "expense") →
      ((dom.filter (fun aid => typeOfFound s aid == some "asset")).map
          (fun aid => (account_balances s lines none aid).getD 0)).sum
        - (((dom.filter (fun aid => typeOfFound s aid == some "liability")).map
              (fun aid => (account_balances s lines none aid).getD 0)).sum
            + ((dom.filter (fun aid => typeOfFound s aid == some "equity")).map
              (fun aid => (account_balances s lines none aid).getD 0)).sum
            + ((dom.filter (fun aid => typeOfFound s aid == some "income")).map
              (fun aid => (account_balances s lines none aid).getD 0)).sum
            - ((dom.filter (fun aid => typeOfFound s aid == some "expense")).map
              (fun aid => (account_balances s lines none aid).getD 0)).sum)
      = (dom.map (fun aid => lineSumD lines aid - lineSumC lines aid)).sum := by
  intro dom
  induction dom with
  | nil => simp
  | cons aid rest ih =>
    intro hcov
    have ihr := ih (fun a ha => hcov a (List.mem_cons_of_mem aid ha))
    have hhead := hcov aid (List.mem_cons_self aid rest)
    simp only [filter_pred_sum_cons, List.map_cons, List.sum_cons]
    rcases hhead with h | h | h | h | h
    · have hb : (account_balances s lines none aid).getD 0
          = lineSumD lines aid - lineSumC lines aid :=
        bval_debit_normal s lines aid (by rw [acctType_of_typeOfFound h]; rfl)
      simp only [h]
      simp [hb]
      linarith [ihr]
    · have hb : (account_balances s lines none aid).getD 0
          = lineSumC lines aid - lineSumD lines aid :=
        bval_credit_normal s lines aid (by rw [acctType_of_typeOfFound h]; rfl)
      simp only [h]
      simp [hb]
      linarith [ihr]
    · have hb : (account_balances s lines none aid).getD 0
          = lineSumC lines aid - lineSumD lines aid :=
        bval_credit_normal s lines aid (by rw [acctType_of_typeOfFound h]; rfl)
      simp only [h]
      simp [hb]
      linarith [ihr]
    · have hb : (account_balances s lines none aid).getD 0
          = lineSumC lines aid - lineSumD lines aid :=
        bval_credit_normal s lines aid (by rw [acctType_of_typeOfFound h]; rfl)
      simp only [h]
      simp [hb]
      linarith [ihr]
    · have hb : (account_balances s lines none aid).getD 0
          = lineSumD lines aid - lineSumC lines aid :=
        bval_debit_normal s lines aid (by rw [acctType_of_typeOfFound h]; rfl)
      simp only [h]
      simp [hb]
      linarith [ihr]

end AccountingEquation

section ZeroSum

/-- Map-sum over a flatMap is the sum of the inner map-sums. -/
theorem sum_map_flatMap {α β : Type} (l : List α) (g : α → List β) (f : β → ℚ) :
    ((l.flatMap g).map f).sum = (l.map (fun x => ((g x).map f).sum)).sum := by
  induction l with
  | nil => simp
  | cons x xs ih => simp [ih]

/-- A non-void transaction with both sides set contributes zero net debit;
a void or dateless one contributes nothing. -/
theorem txn_lines_sum_zero (t : Transaction)
    (h : t.status ≠ "void" →
      truthyId t.debit_account_id = true ∧ truthyId t.credit_account_id = true) :
    ((collectTxnLines none none none t).map (fun l => l.debit - l.credit)).sum = 0 := by
  unfold collectTxnLines
  by_cases hv : t.status = "void"
  · simp [hv]
  · obtain ⟨hd, hc⟩ := h hv
    cases hds : to_date_str t.date with
    | none => simp [hv, hds]
    | some ds =>
      simp [hv, hds, skipLow, skipHigh, hd, hc]

/-- The journal-line side of the unfiltered collection nets to zero when
every non-void entry's stored lines balance. -/
theorem jl_part_sum_zero (s : State)
    (hje : ∀ je ∈ s.entries, je.status ≠ "void" → entrySumD s je.id = entrySumC s je.id) :
    ((s.jlines.flatMap (fun jl =>
        match s.entries.find? (fun je => je.id == jl.journal_entry_id) with
        | none => []
        | some je => collectJlLines none none none je jl)).map
      (fun l => l.debit - l.credit)).sum = 0 := by
  rw [sum_map_flatMap]
  set g := fun jl : JournalLine =>
    ((match s.entries.find? (fun je : JournalEntry => je.id == jl.journal_entry_id) with
      | none => ([] : List Line)
      | some je => collectJlLines none none none je jl).map
        (fun l : Line => l.debit - l.credit)).sum with hg
  rw [← sum_partition (fun jl : JournalLine => jl.journal_entry_id) g s.jlines
      (keyset (s.jlines.map (fun jl => jl.journal_entry_id))) (nodup_keyset _)
      (fun x hx => mem_keyset.mpr (List.mem_map.mpr ⟨x, hx, rfl⟩))]
  apply List.sum_eq_zero
  intro v hv
  obtain ⟨eid, _, rfl⟩ := List.mem_map.mp hv
  set grp := s.jlines.filter (fun jl => jl.journal_entry_id == eid) with hgrp
  have hmemid : ∀ jl ∈ grp, jl.journal_entry_id = eid := by
    intro jl hjl
    have := (List.mem_filter.mp hjl).2
    exact beq_iff_eq.mp this
  cases hfind : s.entries.find? (fun je => je.id == eid) with
  | none =>
    apply List.sum_eq_zero
    intro w hw
    obtain ⟨jl, hjl, rfl⟩ := List.mem_map.mp hw
    have hid := hmemid jl hjl
    simp only [hg, hid, hfind]
    simp
  | some je =>
    have hjeid : je.id = eid := by
      have hp := List.find?_some hfind
      exact beq_iff_eq.mp hp
    have hjemem : je ∈ s.entries := List.mem_of_find?_eq_some hfind
    by_cases hst : je.status = "void"
    · apply List.sum_eq_zero
      intro w hw
      obtain ⟨jl, hjl, rfl⟩ := List.mem_map.mp hw
      have hid := hmemid jl hjl
      simp only [hg, hid, hfind]
      simp [collectJlLines, hst]
    · cases hds : to_date_str je.date with
      | none =>
        apply List.sum_eq_zero
        intro w hw
        obtain ⟨jl, hjl, rfl⟩ := List.mem_map.mp hw
        have hid := hmemid jl hjl
        simp only [hg, hid, hfind]
        simp [collectJlLines, hst, hds]
      | some ds =>
        have hcongr : grp.map g = grp.map (fun jl => jl.debit - jl.credit) := by
          apply List.map_congr_left
          intro jl hjl
          have hid := hmemid jl hjl
          simp only [hg, hid, hfind]
          by_cases hz : jl.debit ≠ 0 ∨ jl.credit ≠ 0
          · simp [collectJlLines, hst, hds, skipLow, skipHigh, hz]
          · push_neg at hz
            simp [collectJlLines, hst, hds, skipLow, skipHigh, hz.1, hz.2]
        rw [hcongr, sum_map_sub]
        have hbal := hje je hjemem hst
        rw [hjeid] at hbal
        have hD : (grp.map (fun jl => jl.debit)).sum = entrySumD s eid := rfl
        have hC : (grp.map (fun jl => jl.credit)).sum = entrySumC s eid := rfl
        rw [hD, hC, hbal, sub_self]

/-- The complete, unfiltered, all-time line collection has zero net debit
when entries balance and transactions are two-sided. -/
theorem collect_unfiltered_sum_zero (s : State)
    (hje : ∀ je ∈ s.entries, je.status ≠ "void" → entrySumD s je.id = entrySumC s je.id)
    (htx : ∀ t ∈ s.transactions, t.status ≠ "void" →
      truthyId t.debit_account_id = true ∧ truthyId t.credit_account_id = true) :
    ((collect_all_lines s none none none).map (fun l => l.debit - l.credit)).sum = 0 := by
  unfold collect_all_lines normFilter
  rw [List.map_append, List.sum_append]
  have h1 : ((s.transactions.flatMap (collectTxnLines none none none)).map
      (fun l => l.debit - l.credit)).sum = 0 := by
    rw [sum_map_flatMap]
    apply List.sum_eq_zero
    intro v hv
    obtain ⟨t, ht, rfl⟩ := List.mem_map.mp hv
    exact txn_lines_sum_zero t (htx t ht)
  have h2 := jl_part_sum_zero s hje
  rw [h1, h2, add_zero]

end ZeroSum

/-- C1: for every line sequence and optional allowed account set, the
Balance Aggregator `account_balances` is defined on exactly the accounts
appearing in the (filtered) line sequence — hence, when an allowed set is
given, only on accounts inside it — with value total debit − total credit
for a debit-normal (asset/expense) account type and total credit − total
debit for any other (liability/equity/income) type; accounts with no line
are absent (`none`). -/
theorem claim_C1 (s : State) (lines : List Line) (ids : Option (List Nat)) (aid : Nat) :
    account_balances s lines ids aid =
      if aid ∈ appearingIds (filterLines ids lines) then
        some (if debitNormal (acctType s aid)
          then lineSumD (filterLines ids lines) aid - lineSumC (filterLines ids lines) aid
          else lineSumC (filterLines ids lines) aid - lineSumD (filterLines ids lines) aid)
      else none :=
  account_balances_spec s lines ids aid

/-- C2: in a state where every non-void journal entry's lines balance,
every non-void transaction has both a (truthy) debit and credit account,
all collected lines reference existing accounts, and all account types are
among the five standard ones, the Balance Aggregator over the complete,
unfiltered, all-time line set satisfies the accounting equation
Σ assets = Σ liabilities + Σ equity + Σ income − Σ expenses (exactly, in
rational arithmetic). -/
theorem claim_C2 (s : State)
    (hje : ∀ je ∈ s.entries, je.status ≠ "void" → entrySumD s je.id = entrySumC s je.id)
    (htx : ∀ t ∈ s.transactions, t.status ≠ "void" →
      truthyId t.debit_account_id = true ∧ truthyId t.credit_account_id = true)
    (hacc : ∀ l ∈ collect_all_lines s none none none, ∃ a ∈ s.accounts, a.id = l.account_id)
    (htypes : ∀ a ∈ s.accounts, a.type = "asset" ∨ a.type = "liability" ∨ a.type = "equity" ∨
      a.type = "income" ∨ a.type = "expense") :
    sumBalType s (collect_all_lines s none none none) "asset"
      = sumBalType s (collect_all_lines s none none none) "liability"
        + sumBalType s (collect_all_lines s none none none) "equity"
        + sumBalType s (collect_all_lines s none none none) "income"
        - sumBalType s (collect_all_lines s none none none) "expense" := by
  set L := collect_all_lines s none none none with hL
  have h5 : ∀ aid ∈ appearingIds L, typeOfFound s aid = some "asset" ∨
      typeOfFound s aid = some "liability" ∨ typeOfFound s aid = some "equity" ∨
      typeOfFound s aid = some "income" ∨ typeOfFound s aid = some "expense" := by
    intro aid hmem
    obtain ⟨l, hl, hla⟩ := mem_appearingIds.mp hmem
    obtain ⟨a, ha, haid⟩ := hacc l (hL ▸ hl)
    have hsome : (s.accounts.find? (fun x => x.id == aid)).isSome :=
      List.find?_isSome.mpr ⟨a, ha, by simp [haid, hla]⟩
    obtain ⟨b, hb⟩ := Option.isSome_iff_exists.mp hsome
    have hbmem := List.mem_of_find?_eq_some hb
    have htf : typeOfFound s aid = some b.type := by simp [typeOfFound, hb]
    rcases htypes b hbmem with h | h | h | h | h
    · exact Or.inl (by rw [htf, h])
    · exact Or.inr (Or.inl (by rw [htf, h]))
    · exact Or.inr (Or.inr (Or.inl (by rw [htf, h])))
    · exact Or.inr (Or.inr (Or.inr (Or.inl (by rw [htf, h]))))
    · exact Or.inr (Or.inr (Or.inr (Or.inr (by rw [htf, h]))))
  have hsplit := bucket_split s L (appearingIds L) h5
  have hnet := sum_net_eq L
  have hzero := collect_unfiltered_sum_zero s hje htx
  rw [← hL] at hzero
  rw [hnet, hzero] at hsplit
  unfold sumBalType
  linarith [hsplit]

/-- Witness for C2 at a concrete populated store: the four hypotheses hold
there and the accounting equation follows. -/
theorem claim_C2_witness :
    (∀ je ∈ exState.entries, je.status ≠ "void" →
      entrySumD exState je.id = entrySumC exState je.id) ∧
    (∀ t ∈ exState.transactions, t.status ≠ "void" →
      truthyId t.debit_account_id = true ∧ truthyId t.credit_account_id = true) ∧
    (∀ l ∈ collect_all_lines exState none none none,
      ∃ a ∈ exState.accounts, a.id = l.account_id) ∧
    (∀ a ∈ exState.accounts, a.type = "asset" ∨ a.type = "liability" ∨ a.type = "equity" ∨
      a.type = "income" ∨ a.type = "expense") ∧
    sumBalType exState (collect_all_lines exState none none none) "asset"
      = sumBalType exState (collect_all_lines exState none none none) "liability"
        + sumBalType exState (collect_all_lines exState none none none) "equity"
        + sumBalType exState (collect_all_lines exState none none none) "income"
        - sumBalType exState (collect_all_lines exState none none none) "expense" := by
  have h1 : ∀ je ∈ exState.entries, je.status ≠ "void" →
      entrySumD exState je.id = entrySumC exState je.id := by
    intro je hje _
    simp only [exState, List.mem_singleton] at hje
    subst hje
    norm_num [entrySumD, entrySumC, exState, List.filter]
  have h2 : ∀ t ∈ exState.transactions, t.status ≠ "void" →
      truthyId t.debit_account_id = true ∧ truthyId t.credit_account_id = true := by
    decide
  have h3 : ∀ l ∈ collect_all_lines exState none none none,
      ∃ a ∈ exState.accounts, a.id = l.account_id := by
    decide
  have h4 : ∀ a ∈ exState.accounts, a.type = "asset" ∨ a.type = "liability" ∨
      a.type = "equity" ∨ a.type = "income" ∨ a.type = "expense" := by
    decide
  exact ⟨h1, h2, h3, h4, claim_C2 exState h1 h2 h3 h4⟩

section LineSource

/-- A date string of length at least 10 normalizes to its 10-character
prefix. -/
theorem to_date_str_of_len {d : String} (h : 10 ≤ pyLen d) :
    to_date_str d = some (pyTake 10 d) := by
  unfold to_date_str
  have hlen : pyLen (pyTake 10 d) = 10 := by
    show (String.mk (d.data.take 10)).data.length = 10
    have hmk : (String.mk (d.data.take 10)).data = d.data.take 10 := rfl
    rw [hmk, List.length_take]
    unfold pyLen at h
    omega
  simp [hlen]

/-- The three skip guards of the collector pass exactly on the inclusive
lexicographic window. -/
theorem window_guards (df dt ao : Option String) (ds : String) :
    (skipLow df ds = false ∧ skipHigh dt ds = false ∧ skipHigh ao ds = false) ↔
      inWindowB df dt ao ds = true := by
  cases df <;> cases dt <;> cases ao <;>
    simp [skipLow, skipHigh, inWindowB, pyLe, and_assoc]

/-- C3: a transaction's lines are emitted by the Ledger Line Source iff the
transaction is not void and its 10-character date prefix lies inclusively
inside every supplied bound (lexicographic string comparison); a non-void
in-window transaction contributes a debit line of `amount` against a set
(truthy) debit account and a credit line against a set credit account.  A
journal line is emitted verbatim iff its entry is non-void and in-window
and the line has a nonzero debit or credit.  The full source is the
concatenation over transactions and joined journal lines, with
whitespace-stripped filters. -/
theorem claim_C3 (s : State) (df dt ao : Option String) (t : Transaction)
    (je : JournalEntry) (jl : JournalLine)
    (ht : 10 ≤ pyLen t.date) (hj : 10 ≤ pyLen je.date) :
    (collectTxnLines df dt ao t =
      if t.status ≠ "void" ∧ inWindowB df dt ao (pyTake 10 t.date) = true then
        (if truthyId t.debit_account_id then
          [⟨pyTake 10 t.date, t.debit_account_id.getD 0, t.amount, 0⟩] else [])
        ++ (if truthyId t.credit_account_id then
          [⟨pyTake 10 t.date, t.credit_account_id.getD 0, 0, t.amount⟩] else [])
      else []) ∧
    (collectJlLines df dt ao je jl =
      if je.status ≠ "void" ∧ inWindowB df dt ao (pyTake 10 je.date) = true ∧
          (jl.debit ≠ 0 ∨ jl.credit ≠ 0) then
        [⟨pyTake 10 je.date, jl.account_id, jl.debit, jl.credit⟩]
      else []) ∧
    collect_all_lines s df dt ao =
      s.transactions.flatMap
          (collectTxnLines (normFilter df) (normFilter dt) (normFilter ao)) ++
        s.jlines.flatMap (fun jl2 =>
          match s.entries.find? (fun je2 => je2.id == jl2.journal_entry_id) with
          | none => []
          | some je2 => collectJlLines (normFilter df) (normFilter dt) (normFilter ao) je2 jl2) := by
  refine ⟨?_, ?_, rfl⟩
  · by_cases hv : t.status = "void"
    · simp [collectTxnLines, hv]
    · cases h1 : skipLow df (pyTake 10 t.date) <;>
        cases h2 : skipHigh dt (pyTake 10 t.date) <;>
          cases h3 : skipHigh ao (pyTake 10 t.date) <;>
      · have hw := window_guards df dt ao (pyTake 10 t.date)
        rw [h1, h2, h3] at hw
        simp only [collectTxnLines, to_date_str_of_len ht, hv, h1, h2, h3]
        simp only [← hw]
        simp [hv]
  · by_cases hv : je.status = "void"
    · simp [collectJlLines, hv]
    · cases h1 : skipLow df (pyTake 10 je.date) <;>
        cases h2 : skipHigh dt (pyTake 10 je.date) <;>
          cases h3 : skipHigh ao (pyTake 10 je.date) <;>
      · have hw := window_guards df dt ao (pyTake 10 je.date)
        rw [h1, h2, h3] at hw
        simp only [collectJlLines, to_date_str_of_len hj, hv, h1, h2, h3]
        simp only [← hw]
        simp [hv]

/-- Witness for C3 at a concrete transaction, journal entry/line and filter
combination. -/
theorem claim_C3_witness :
    (10 ≤ pyLen ("2024-01-05T00:00:00" : String)) ∧
    (collectTxnLines (some "2024-01-01") (some "2024-12-31") none
        ⟨1, "2024-01-05T00:00:00", "Sale", 250, "income", some 1, some 2, "posted", none, ""⟩ =
      if ("posted" : String) ≠ "void" ∧
          inWindowB (some "2024-01-01") (some "2024-12-31") none
            (pyTake 10 "2024-01-05T00:00:00") = true then
        (if truthyId (some 1) then
          [⟨pyTake 10 "2024-01-05T00:00:00", (some 1).getD 0, (250 : ℚ), 0⟩] else [])
        ++ (if truthyId (some 2) then
          [⟨pyTake 10 "2024-01-05T00:00:00", (some 2).getD 0, 0, (250 : ℚ)⟩] else [])
      else []) := by
  have h :=
    claim_C3 exState (some "2024-01-01") (some "2024-12-31") none
      ⟨1, "2024-01-05T00:00:00", "Sale", 250, "income", some 1, some 2, "posted", none, ""⟩
      ⟨1, "2024-01-10T00:00:00", "Rent", "", "posted", none, ""⟩
      ⟨1, 1, 5, 100, 0, "", none, 0⟩ (by decide) (by decide)
  exact ⟨by decide, h.1⟩

end LineSource

section GeneralLedger

/-- Python `<` on strings is irreflexive. -/
theorem charListLt_irrefl : ∀ (l : List Char), charListLt l l = false := by
  intro l
  induction l with
  | nil => rfl
  | cons c cs ih => simp [charListLt, ih]

/-- `pyLt s s = false`. -/
theorem pyLt_irrefl (s : String) : pyLt s s = false := by
  simp [pyLt, charListLt_irrefl]

/-- The running-balance loop preserves length. -/
theorem glGo_length (norm : Bool) :
    ∀ (l : List GLEntry) (acc : ℚ), (glGo norm acc l).length = l.length := by
  intro l
  induction l with
  | nil => intro acc; rfl
  | cons e es ih => intro acc; simp [glGo, ih]

/-- The running-balance loop copies every non-balance field verbatim. -/
theorem glGo_fields (norm : Bool) :
    ∀ (l : List GLEntry) (acc : ℚ),
      (glGo norm acc l).map (fun o => (o.date, o.txn_id, o.description, o.debit, o.credit))
        = l.map (fun e => (e.date, e.txn_id, e.description, e.debit, e.credit)) := by
  intro l
  induction l with
  | nil => intro acc; rfl
  | cons e es ih => intro acc; simp [glGo, ih]

/-- The i-th balance shown by the running-balance loop is the rounded
prefix sum of the signed amounts, starting from the accumulator. -/
theorem glGo_get_balance (norm : Bool) :
    ∀ (l : List GLEntry) (acc : ℚ) (i : Nat) (hi : i < (glGo norm acc l).length),
      ((glGo norm acc l).get ⟨i, hi⟩).balance
        = round2 (acc + ((l.take (i + 1)).map
            (fun e => if norm then e.debit - e.credit else e.credit - e.debit)).sum) := by
  intro l
  induction l with
  | nil => intro acc i hi; simp [glGo] at hi
  | cons e es ih =>
    intro acc i hi
    cases i with
    | zero =>
      simp only [glGo, List.get, List.take, List.map_cons, List.map_nil, List.sum_cons,
        List.sum_nil]
      congr 1
      ring
    | succ n =>
      have hn : n < (glGo norm (acc + (if norm then e.debit - e.credit
          else e.credit - e.debit)) es).length := by
        simp only [glGo] at hi
        simpa using Nat.lt_of_succ_lt_succ hi
      have := ih (acc + (if norm then e.debit - e.credit else e.credit - e.debit)) n hn
      simp only [glGo, List.get] at this ⊢
      rw [this]
      congr 1
      simp only [List.take, List.map_cons, List.sum_cons]
      ring

/-- C4: for an existing account looked up with a truthy id, the general
ledger reports the account, lists the raw in-range rows of both sources
sorted by (date, label) with labels `TXN-%06d`/`JE-%06d`, and shows as the
i-th running balance the (rounded) fold that starts at 0 and adds
debit − credit per row for a debit-normal (asset/expense) account and
credit − debit otherwise, i.e. the prefix sum of the first i+1 sorted rows. -/
theorem claim_C4 (s : State) (aid : Nat) (acc : Account) (df dt : Option String)
    (h0 : aid ≠ 0) (hfind : s.accounts.find? (fun a => a.id == aid) = some acc) :
    (general_ledger_data s aid df dt).account = some acc ∧
    ((general_ledger_data s aid df dt).entries.map
        (fun o => (o.date, o.txn_id, o.description, o.debit, o.credit))
      = (sortLe glLe (glTxnRows s aid df dt ++ glJlRows s aid df dt)).map
        (fun e => (e.date, e.txn_id, e.description, e.debit, e.credit))) ∧
    ∀ i (hi : i < (general_ledger_data s aid df dt).entries.length),
      ((general_ledger_data s aid df dt).entries.get ⟨i, hi⟩).balance
        = round2 ((((sortLe glLe (glTxnRows s aid df dt ++ glJlRows s aid df dt)).take
              (i + 1)).map
            (fun e => if debitNormal acc.type then e.debit - e.credit
              else e.credit - e.debit)).sum) := by
  have hgl : general_ledger_data s aid df dt =
      ⟨some acc, glGo (debitNormal acc.type) 0
        (sortLe glLe (glTxnRows s aid df dt ++ glJlRows s aid df dt))⟩ := by
    unfold general_ledger_data
    rw [if_neg h0, hfind]
  rw [hgl]
  refine ⟨rfl, glGo_fields _ _ _, ?_⟩
  intro i hi
  rw [glGo_get_balance, zero_add]

end GeneralLedger

/-- Witness for C4: on the concrete debit-normal account with chronological
lines (debit 100, credit 30, an all-zero line) the reported running
balances are 100, 70, 70. -/
theorem claim_C4_witness :
    ((1 : Nat) ≠ 0) ∧
    glState.accounts.find? (fun a => a.id == 1) = some ⟨1, "Cash", "asset", "1000", true⟩ ∧
    (general_ledger_data glState 1 none none).account
      = some ⟨1, "Cash", "asset", "1000", true⟩ ∧
    (general_ledger_data glState 1 none none).entries.map (fun o => o.balance)
      = [100, 70, 70] := by
  have h := claim_C4 glState 1 ⟨1, "Cash", "asset", "1000", true⟩ none none
    (by decide) (by decide)
  refine ⟨by decide, by decide, h.1, ?_⟩
  norm_num [general_ledger_data, glState, glTxnRows, glJlRows, sortLe, insertLe, jeJlLe,
    glLe, glGo, round2, glSkipLow, glSkipHigh, debitNormal, pyLt_irrefl, pyLe,
    List.filter, List.filterMap, List.find?]

section JournalPost

/-- Every parsed journal line carries a truthy (nonzero) account id. -/
theorem parseLines_pos {ls : List JLineInput} : ∀ l ∈ parseLines ls, l.account_id ≠ 0 := by
  intro l hl
  obtain ⟨x, _, hfx⟩ := List.mem_filterMap.mp hl
  rcases hxa : x.account_id with _ | a
  · rw [hxa] at hfx
    simp at hfx
  · rw [hxa] at hfx
    by_cases h0 : a = 0
    · simp [h0] at hfx
    · simp only [h0, if_false, Option.some.injEq] at hfx
      rw [← hfx]
      simpa using h0

/-- The tax-surcharge calculator only appends, so the proposed lines are
still present afterwards. -/
theorem mem_taxAugment {l : PLine} {lines : List PLine} (accounts : List Account)
    (taxA cashA : Account) (trName : String) (rate : ℚ) (h : l ∈ lines) :
    l ∈ taxAugment accounts taxA cashA trName rate lines := by
  unfold taxAugment
  exact List.mem_append_left _ (List.mem_append_left _ h)

/-- The guarded surcharge keeps the proposed lines in every branch. -/
theorem mem_taxLines {l : PLine} {lines : List PLine} (s : State)
    (tax_rate_id : Option Nat) (h : l ∈ lines) :
    l ∈ taxLines s tax_rate_id lines := by
  unfold taxLines
  rcases tax_rate_id with _ | rid
  · simpa using h
  · rcases hta : s.accounts.find? (fun a => a.code == "2300") with _ | taxA
    · simpa [hta] using h
    · rcases hca : resolvedCash s with _ | cashA
      · simpa [hta, hca] using h
      · simp only [hta, hca]
        by_cases hr : rid = 0
        · simpa [hr] using h
        · rcases htr : s.tax_rates.find? (fun r => r.id == rid) with _ | tr
          · simpa [hr, htr] using h
          · simpa [hr, htr] using
              mem_taxAugment s.accounts taxA cashA tr.name tr.rate h

/-- Every truthy proposed line is persisted by the journal-line loop with
its account, debit and credit intact. -/
theorem mkJLines_mem (jeId : Nat) {l : PLine} :
    ∀ (ls : List PLine) (base : Nat), l ∈ ls → l.account_id ≠ 0 →
      ∃ jl ∈ mkJLines jeId base ls, jl.journal_entry_id = jeId ∧
        jl.account_id = l.account_id ∧ jl.debit = l.debit ∧ jl.credit = l.credit := by
  intro ls
  induction ls with
  | nil =>
    intro base h
    simp at h
  | cons x xs ih =>
    intro base hmem hpos
    rcases List.mem_cons.mp hmem with rfl | hx
    · refine ⟨⟨base, jeId, l.account_id, l.debit, l.credit, pyStrip l.memo, none, 0⟩, ?_,
        rfl, rfl, rfl, rfl⟩
      unfold mkJLines
      rw [if_neg hpos]
      exact List.mem_cons_self _ _
    · by_cases hx0 : x.account_id = 0
      · unfold mkJLines
        rw [if_pos hx0]
        exact ih base hx hpos
      · unfold mkJLines
        rw [if_neg hx0]
        obtain ⟨jl, hjl, hf⟩ := ih (base + 1) hx hpos
        exact ⟨jl, List.mem_cons_of_mem _ hjl, hf⟩

/-- C5: with a non-blank description, posting a journal entry fails with a
validation error — leaving the store untouched, since the handler returns
before persisting — iff fewer than 2 submitted lines carry a (truthy)
account id or their total debits and credits differ by more than 0.01;
otherwise it succeeds and persists the entry together with every parsed
line. -/
theorem claim_C5 (now : String) (jeId lineBase : Nat) (s : State) (inp : JournalInput)
    (hdesc : pyStrip inp.description ≠ "") :
    ((∃ e, api_journal_post now jeId lineBase s inp = .error e) ↔
      ((parseLines inp.lines).length < 2 ∨
        1 / 100 < qabs (pSumD (parseLines inp.lines) - pSumC (parseLines inp.lines)))) ∧
    ∀ s2 jid, api_journal_post now jeId lineBase s inp = .ok (s2, jid) →
      ((∃ je ∈ s2.entries, je.id = jid ∧ je.description = pyStrip inp.description ∧
          je.status = "posted") ∧
        ∀ l ∈ parseLines inp.lines, ∃ jl ∈ s2.jlines,
          jl.journal_entry_id = jid ∧ jl.account_id = l.account_id ∧
            jl.debit = l.debit ∧ jl.credit = l.credit) := by
  have hdef : api_journal_post now jeId lineBase s inp =
      (if (parseLines inp.lines).length < 2 then .error "At least 2 lines required"
       else if 1 / 100 < qabs (pSumD (parseLines inp.lines) - pSumC (parseLines inp.lines))
        then .error "Debits must equal credits"
       else .ok ({ s with
          entries := s.entries ++ [⟨jeId, (match inp.date with | some d => d | none => now),
            pyStrip inp.description, pyStrip inp.reference, "posted", none, ""⟩]
          jlines := s.jlines ++
            mkJLines jeId lineBase (taxLines s inp.tax_rate_id (parseLines inp.lines)) },
        jeId)) := by
    unfold api_journal_post
    rw [if_neg hdesc]
  by_cases hc1 : (parseLines inp.lines).length < 2
  · rw [hdef, if_pos hc1]
    refine ⟨⟨fun _ => Or.inl hc1, fun _ => ⟨"At least 2 lines required", rfl⟩⟩, ?_⟩
    intro s2 jid hok
    exact absurd hok (by simp)
  · by_cases hc2 : 1 / 100 < qabs (pSumD (parseLines inp.lines) - pSumC (parseLines inp.lines))
    · rw [hdef, if_neg hc1, if_pos hc2]
      refine ⟨⟨fun _ => Or.inr hc2, fun _ => ⟨"Debits must equal credits", rfl⟩⟩, ?_⟩
      intro s2 jid hok
      exact absurd hok (by simp)
    · rw [hdef, if_neg hc1, if_neg hc2]
      refine ⟨⟨?_, ?_⟩, ?_⟩
      · rintro ⟨e, he⟩
        exact absurd he (by simp)
      · rintro (h | h)
        · exact absurd h hc1
        · exact absurd h hc2
      · intro s2 jid hok
        rw [Except.ok.injEq, Prod.mk.injEq] at hok
        obtain ⟨hs2, hjid⟩ := hok
        subst hjid
        constructor
        · refine ⟨⟨jeId, (match inp.date with | some d => d | none => now),
            pyStrip inp.description, pyStrip inp.reference, "posted", none, ""⟩, ?_,
            rfl, rfl, rfl⟩
          rw [← hs2]
          exact List.mem_append_right _ (List.mem_singleton.mpr rfl)
        · intro l hl
          have hpos := parseLines_pos l hl
          have hl2 := mem_taxLines s inp.tax_rate_id hl
          obtain ⟨jl, hjl, hf⟩ := mkJLines_mem jeId _ lineBase hl2 hpos
          refine ⟨jl, ?_, hf⟩
          rw [← hs2]
          exact List.mem_append_right _ hjl

end JournalPost

/-- Witness for C5: the spec scenario of an unbalanced two-line entry
(debit 60 vs credit 50) under a non-blank description fails with a
validation error. -/
theorem claim_C5_witness :
    (pyStrip "Office" ≠ "") ∧
    ((∃ e, api_journal_post "2024-03-01T00:00:00" 2 3 exState
        ⟨"Office", "", none, none, [⟨some 5, 60, 0, ""⟩, ⟨some 1, 0, 50, ""⟩]⟩ = .error e) ↔
      ((parseLines [⟨some 5, 60, 0, ""⟩, ⟨some 1, 0, 50, ""⟩]).length < 2 ∨
        1 / 100 < qabs (pSumD (parseLines [⟨some 5, 60, 0, ""⟩, ⟨some 1, 0, 50, ""⟩])
          - pSumC (parseLines [⟨some 5, 60, 0, ""⟩, ⟨some 1, 0, 50, ""⟩])))) := by
  have h := claim_C5 "2024-03-01T00:00:00" 2 3 exState
    ⟨"Office", "", none, none, [⟨some 5, 60, 0, ""⟩, ⟨some 1, 0, 50, ""⟩]⟩ (by decide)
  exact ⟨by decide, h.1⟩

section TaxSurcharge

/-- C6: for a proposed line set with equal total debits and credits and any
tax rate, given the designated tax and cash accounts, the Tax Surcharge
Calculator appends only self-balancing pairs: total debits still equal
total credits afterwards, and every account other than the tax and cash
accounts keeps its exact per-account debit total, credit total, and
normal-balance amount. -/
theorem claim_C6 (accounts : List Account) (taxA cashA : Account) (trName : String)
    (rate : ℚ) (lines : List PLine)
    (hbal : pSumD lines = pSumC lines) :
    pSumD (taxAugment accounts taxA cashA trName rate lines)
      = pSumC (taxAugment accounts taxA cashA trName rate lines) ∧
    ∀ aid, aid ≠ taxA.id → aid ≠ cashA.id →
      pAcctD (taxAugment accounts taxA cashA trName rate lines) aid = pAcctD lines aid ∧
      pAcctC (taxAugment accounts taxA cashA trName rate lines) aid = pAcctC lines aid ∧
      pBal accounts (taxAugment accounts taxA cashA trName rate lines) aid
        = pBal accounts lines aid := by
  constructor
  · simp only [taxAugment]
    split_ifs <;> simp [pSumD, pSumC] at hbal ⊢ <;> linarith [hbal]
  · intro aid h1 h2
    have hb1 : (taxA.id == aid) = false := by
      simp only [beq_eq_false_iff_ne, ne_eq]
      exact fun hh => h1 hh.symm
    have hb2 : (cashA.id == aid) = false := by
      simp only [beq_eq_false_iff_ne, ne_eq]
      exact fun hh => h2 hh.symm
    have hD : pAcctD (taxAugment accounts taxA cashA trName rate lines) aid
        = pAcctD lines aid := by
      simp only [taxAugment]
      split_ifs <;> simp [pAcctD, List.filter_append, hb1, hb2]
    have hC : pAcctC (taxAugment accounts taxA cashA trName rate lines) aid
        = pAcctC lines aid := by
      simp only [taxAugment]
      split_ifs <;> simp [pAcctC, List.filter_append, hb1, hb2]
    refine ⟨hD, hC, ?_⟩
    unfold pBal
    rw [hD, hC]

end TaxSurcharge

/-- Witness for C6: posting income credit 100 / cash debit 100 at a 13%
rate stays balanced and leaves the income account's balance at exactly
100 (the appended 13.00 tax pair touches only the tax and cash accounts). -/
theorem claim_C6_witness :
    (pSumD [⟨2, 0, 100, ""⟩, ⟨1, 100, 0, ""⟩]
      = pSumC [⟨2, 0, 100, ""⟩, ⟨1, 100, 0, ""⟩]) ∧
    (pSumD (taxAugment exAccounts ⟨3, "Sales Tax Payable", "liability", "2300", true⟩
        ⟨1, "Cash", "asset", "1000", true⟩ "HST (13%)" 13 [⟨2, 0, 100, ""⟩, ⟨1, 100, 0, ""⟩])
      = pSumC (taxAugment exAccounts ⟨3, "Sales Tax Payable", "liability", "2300", true⟩
        ⟨1, "Cash", "asset", "1000", true⟩ "HST (13%)" 13 [⟨2, 0, 100, ""⟩, ⟨1, 100, 0, ""⟩])) ∧
    (pBal exAccounts (taxAugment exAccounts ⟨3, "Sales Tax Payable", "liability", "2300", true⟩
        ⟨1, "Cash", "asset", "1000", true⟩ "HST (13%)" 13 [⟨2, 0, 100, ""⟩, ⟨1, 100, 0, ""⟩]) 2
      = pBal exAccounts [⟨2, 0, 100, ""⟩, ⟨1, 100, 0, ""⟩] 2) ∧
    pBal exAccounts [⟨2, 0, 100, ""⟩, ⟨1, 100, 0, ""⟩] 2 = 100 := by
  have hbal : pSumD [(⟨2, 0, 100, ""⟩ : PLine), ⟨1, 100, 0, ""⟩]
      = pSumC [⟨2, 0, 100, ""⟩, ⟨1, 100, 0, ""⟩] := by
    norm_num [pSumD, pSumC]
  have h := claim_C6 exAccounts ⟨3, "Sales Tax Payable", "liability", "2300", true⟩
    ⟨1, "Cash", "asset", "1000", true⟩ "HST (13%)" 13 [⟨2, 0, 100, ""⟩, ⟨1, 100, 0, ""⟩] hbal
  refine ⟨hbal, h.1, (h.2 2 (by decide) (by decide)).2.2, ?_⟩
  have hfind : exAccounts.find? (fun a => a.id == 2)
      = some ⟨2, "Sales Revenue", "income", "4000", true⟩ := by decide
  have hfil : List.filter (fun l => l.account_id == 2)
      [(⟨2, 0, 100, ""⟩ : PLine), ⟨1, 100, 0, ""⟩] = [⟨2, 0, 100, ""⟩] := by decide
  norm_num [pBal, pAcctD, pAcctC, hfind, hfil, debitNormal]
  exact ⟨by decide, by decide⟩

section IncomeStatement

/-- Membership in a stable insertion is membership in the inserted element
or the list. -/
theorem mem_insertLe {α : Type} (le : α → α → Bool) (a x : α) :
    ∀ (l : List α), x ∈ insertLe le a l ↔ x = a ∨ x ∈ l := by
  intro l
  induction l with
  | nil => simp [insertLe]
  | cons b bs ih =>
    by_cases h : le a b
    · simp [insertLe, h, List.mem_cons]
    · simp [insertLe, h, List.mem_cons, ih]
      tauto

/-- The stable sort keeps exactly the original elements. -/
theorem mem_sortLe {α : Type} (le : α → α → Bool) (x : α) :
    ∀ (l : List α), x ∈ sortLe le l ↔ x ∈ l := by
  intro l
  induction l with
  | nil => simp [sortLe]
  | cons a as ih => simp [sortLe, mem_insertLe, ih, List.mem_cons]

/-- A filtered map-sum equals the map-sum of the pointwise guard. -/
theorem sum_filter_ite {α : Type} (p : α → Bool) (f : α → ℚ) :
    ∀ (l : List α),
      ((l.filter p).map f).sum = (l.map (fun x => if p x then f x else 0)).sum := by
  intro l
  induction l with
  | nil => rfl
  | cons x xs ih => by_cases h : p x <;> simp [List.filter_cons, h, ih]

/-- Characterization of one side of the income statement: its rows are
exactly the appearing accounts of the requested type with strictly positive
aggregated balance, rendered as (code, name, rounded balance). -/
theorem mem_isRows {s : State} {lines : List Line} {ty : String} {r : ISRow} :
    r ∈ isRows s lines ty ↔
      ∃ aid a, aid ∈ appearingIds lines ∧
        s.accounts.find? (fun x => x.id == aid) = some a ∧ a.type = ty ∧
        0 < (account_balances s lines none aid).getD 0 ∧
        r = ⟨a.code, a.name, round2 ((account_balances s lines none aid).getD 0)⟩ := by
  unfold isRows
  rw [mem_sortLe, List.mem_filterMap]
  constructor
  · rintro ⟨aid, hpick, hF⟩
    unfold isPick at hpick
    obtain ⟨hmem, hcond⟩ := List.mem_filter.mp hpick
    rw [Bool.and_eq_true] at hcond
    obtain ⟨hty, hpos⟩ := hcond
    have hty2 : typeOfFound s aid = some ty := by
      exact beq_iff_eq.mp hty
    have hpos2 : 0 < (account_balances s lines none aid).getD 0 := of_decide_eq_true hpos
    unfold typeOfFound at hty2
    cases hf : s.accounts.find? (fun x => x.id == aid) with
    | none =>
      rw [hf] at hty2
      simp at hty2
    | some a =>
      rw [hf] at hty2
      simp only [Option.map_some', Option.some.injEq] at hty2
      rw [hf] at hF
      refine ⟨aid, a, hmem, hf, hty2, hpos2, ?_⟩
      exact (Option.some.inj hF).symm
  · rintro ⟨aid, a, hmem, hf, hty, hpos, rfl⟩
    refine ⟨aid, ?_, ?_⟩
    · unfold isPick
      refine List.mem_filter.mpr ⟨hmem, ?_⟩
      rw [Bool.and_eq_true]
      refine ⟨?_, decide_eq_true hpos⟩
      unfold typeOfFound
      rw [hf]
      simp [hty]
    · rw [hf]

/-- The filtered totals of the income statement as a guarded sum over all
appearing accounts: accounts dropped by the type/positivity filter
contribute nothing. -/
theorem isTotal_ite (s : State) (lines : List Line) (ty : String) :
    isTotal s lines ty = ((appearingIds lines).map (fun aid =>
      if typeOfFound s aid = some ty ∧ 0 < (account_balances s lines none aid).getD 0
      then (account_balances s lines none aid).getD 0 else 0)).sum := by
  unfold isTotal isPick
  rw [sum_filter_ite]
  apply congrArg List.sum
  apply List.map_congr_left
  intro aid _
  by_cases h1 : typeOfFound s aid = some ty <;>
    by_cases h2 : 0 < (account_balances s lines none aid).getD 0 <;>
      simp [h1, h2]

/-- C7: the income statement's revenue rows are exactly the income-type
accounts with strictly positive aggregated balance and its expense rows
exactly the positive expense-type accounts; the reported totals sum only
those retained accounts (a dropped account contributes no amount), and
net_income is total revenue minus total expenses (rounded for display). -/
theorem claim_C7 (s : State) (df dt : Option String) :
    (∀ r, r ∈ (income_statement_data s df dt).revenue_accounts ↔
      ∃ aid a, aid ∈ appearingIds (collect_all_lines s df dt none) ∧
        s.accounts.find? (fun x => x.id == aid) = some a ∧ a.type = "income" ∧
        0 < (account_balances s (collect_all_lines s df dt none) none aid).getD 0 ∧
        r = ⟨a.code, a.name,
          round2 ((account_balances s (collect_all_lines s df dt none) none aid).getD 0)⟩) ∧
    (∀ r, r ∈ (income_statement_data s df dt).expense_accounts ↔
      ∃ aid a, aid ∈ appearingIds (collect_all_lines s df dt none) ∧
        s.accounts.find? (fun x => x.id == aid) = some a ∧ a.type = "expense" ∧
        0 < (account_balances s (collect_all_lines s df dt none) none aid).getD 0 ∧
        r = ⟨a.code, a.name,
          round2 ((account_balances s (collect_all_lines s df dt none) none aid).getD 0)⟩) ∧
    (income_statement_data s df dt).total_revenue
      = round2 (((appearingIds (collect_all_lines s df dt none)).map (fun aid =>
          if typeOfFound s aid = some "income" ∧
              0 < (account_balances s (collect_all_lines s df dt none) none aid).getD 0
          then (account_balances s (collect_all_lines s df dt none) none aid).getD 0
          else 0)).sum) ∧
    (income_statement_data s df dt).total_expenses
      = round2 (((appearingIds (collect_all_lines s df dt none)).map (fun aid =>
          if typeOfFound s aid = some "expense" ∧
              0 < (account_balances s (collect_all_lines s df dt none) none aid).getD 0
          then (account_balances s (collect_all_lines s df dt none) none aid).getD 0
          else 0)).sum) ∧
    (income_statement_data s df dt).net_income
      = round2 ((((appearingIds (collect_all_lines s df dt none)).map (fun aid =>
          if typeOfFound s aid = some "income" ∧
              0 < (account_balances s (collect_all_lines s df dt none) none aid).getD 0
          then (account_balances s (collect_all_lines s df dt none) none aid).getD 0
          else 0)).sum)
        - (((appearingIds (collect_all_lines s df dt none)).map (fun aid =>
          if typeOfFound s aid = some "expense" ∧
              0 < (account_balances s (collect_all_lines s df dt none) none aid).getD 0
          then (account_balances s (collect_all_lines s df dt none) none aid).getD 0
          else 0)).sum)) := by
  have hdata : income_statement_data s df dt =
      ⟨isRows s (collect_all_lines s df dt none) "income",
        isRows s (collect_all_lines s df dt none) "expense",
        round2 (isTotal s (collect_all_lines s df dt none) "income"),
        round2 (isTotal s (collect_all_lines s df dt none) "expense"),
        round2 (isTotal s (collect_all_lines s df dt none) "income"
          - isTotal s (collect_all_lines s df dt none) "expense")⟩ := rfl
  rw [hdata]
  refine ⟨fun r => mem_isRows, fun r => mem_isRows, ?_, ?_, ?_⟩
  · show round2 (isTotal s (collect_all_lines s df dt none) "income") = _
    rw [isTotal_ite]
  · show round2 (isTotal s (collect_all_lines s df dt none) "expense") = _
    rw [isTotal_ite]
  · show round2 (isTotal s (collect_all_lines s df dt none) "income"
      - isTotal s (collect_all_lines s df dt none) "expense") = _
    rw [isTotal_ite s (collect_all_lines s df dt none) "income",
      isTotal_ite s (collect_all_lines s df dt none) "expense"]

end IncomeStatement

section TransactionPost

/-- Counterexample to C8 as stated: in a chart with no code-"1000" account,
a successful income posting debits the FIRST asset account in table order
(id 1, code "2000"), not the lowest-code asset account (id 2, code "0500"
< "2000"). -/
theorem claim_C8_counterexample :
    ((add_transaction "2024-03-01T00:00:00" 1 oddState ⟨"Sale", some 5, some "income"⟩).toOption =
      some ({ oddState with transactions :=
          [⟨1, "2024-03-01T00:00:00", "Sale", 5, "income", some 1, some 3, "posted", none, ""⟩] },
        ⟨1, "2024-03-01T00:00:00", "Sale", 5, "income", some 1, some 3, "posted", none, ""⟩)) ∧
    (∀ a ∈ oddState.accounts, a.code ≠ "1000") ∧
    (∃ a ∈ oddState.accounts, a.type = "asset" ∧ a.code = "0500") ∧
    ((oddState.accounts.find? (fun a => a.id == 1)).map (fun a => a.code) = some "2000") ∧
    pyLt "0500" "2000" = true := by
  decide

/-- C8 amended: for every successful postTransaction call, an income posting
debits the resolved cash account and credits the first income-type account,
an expense posting debits the first expense-type account and credits cash —
where cash is the first account with code "1000" or, when none exists, the
first asset-type account in table order (not necessarily the lowest-code
asset account). -/
theorem claim_C8_amended (now : String) (newId : Nat) (s : State) (inp : TxnInput)
    (s2 : State) (t : Transaction)
    (h : add_transaction now newId s inp = .ok (s2, t)) :
    ∃ cash income expenses,
      resolvedCash s = some cash ∧
      s.accounts.find? (fun a => a.type == "income") = some income ∧
      s.accounts.find? (fun a => a.type == "expense") = some expenses ∧
      income.type = "income" ∧ expenses.type = "expense" ∧
      (t.type = "income" → t.debit_account_id = some cash.id ∧
        t.credit_account_id = some income.id) ∧
      (t.type ≠ "income" → t.debit_account_id = some expenses.id ∧
        t.credit_account_id = some cash.id) ∧
      t ∈ s2.transactions := by
  unfold add_transaction at h
  rcases hamt : inp.amount with _ | amt
  · rw [hamt] at h
    exact absurd h (by simp)
  · rw [hamt] at h
    rcases hcash : resolvedCash s with _ | cash
    · rw [hcash] at h
      exact absurd h (by simp)
    · rw [hcash] at h
      rcases hinc : s.accounts.find? (fun a => a.type == "income") with _ | income
      · rw [hinc] at h
        exact absurd h (by simp)
      · rw [hinc] at h
        rcases hexp : s.accounts.find? (fun a => a.type == "expense") with _ | expenses
        · rw [hexp] at h
          exact absurd h (by simp)
        · rw [hexp] at h
          rw [Except.ok.injEq, Prod.mk.injEq] at h
          obtain ⟨hs2, ht⟩ := h
          refine ⟨cash, income, expenses, by simp [hcash], by simp [hinc],
            by simp [hexp], ?_, ?_, ?_, ?_, ?_⟩
          · have hp := List.find?_some hinc
            exact beq_iff_eq.mp hp
          · have hp := List.find?_some hexp
            exact beq_iff_eq.mp hp
          · intro hty
            rw [← ht] at hty ⊢
            simp only at hty
            simp [hty]
          · intro hty
            rw [← ht] at hty ⊢
            simp only at hty
            simp [hty]
          · rw [← hs2, ← ht]
            exact List.mem_append_right _ (List.mem_singleton.mpr rfl)

/-- Witness for the amended C8 at the concrete chart with no "1000" code:
the resolved accounts exist and the posted transaction follows the
convention. -/
theorem claim_C8_amended_witness :
    ∃ cash income expenses,
      resolvedCash oddState = some cash ∧
      oddState.accounts.find? (fun a => a.type == "income") = some income ∧
      oddState.accounts.find? (fun a => a.type == "expense") = some expenses ∧
      income.type = "income" ∧ expenses.type = "expense" ∧
      ((⟨1, "2024-03-01T00:00:00", "Sale", 5, "income", some 1, some 3, "posted", none,
          ""⟩ : Transaction).type = "income" →
        (⟨1, "2024-03-01T00:00:00", "Sale", 5, "income", some 1, some 3, "posted", none,
          ""⟩ : Transaction).debit_account_id = some cash.id ∧
        (⟨1, "2024-03-01T00:00:00", "Sale", 5, "income", some 1, some 3, "posted", none,
          ""⟩ : Transaction).credit_account_id = some income.id) ∧
      ((⟨1, "2024-03-01T00:00:00", "Sale", 5, "income", some 1, some 3, "posted", none,
          ""⟩ : Transaction).type ≠ "income" →
        (⟨1, "2024-03-01T00:00:00", "Sale", 5, "income", some 1, some 3, "posted", none,
          ""⟩ : Transaction).debit_account_id = some expenses.id ∧
        (⟨1, "2024-03-01T00:00:00", "Sale", 5, "income", some 1, some 3, "posted", none,
          ""⟩ : Transaction).credit_account_id = some cash.id) ∧
      (⟨1, "2024-03-01T00:00:00", "Sale", 5, "income", some 1, some 3, "posted", none,
        ""⟩ : Transaction) ∈
        ({ oddState with transactions :=
          [⟨1, "2024-03-01T00:00:00", "Sale", 5, "income", some 1, some 3, "posted", none,
            ""⟩] } : State).transactions :=
  claim_C8_amended "2024-03-01T00:00:00" 1 oddState ⟨"Sale", some 5, some "income"⟩ _ _ rfl

/-- Counterexample to C9 as stated: a call with an empty description and a
negative amount is accepted and its transaction row is persisted (the
handler validates neither). -/
theorem claim_C9_counterexample :
    ((add_transaction "2024-03-01T00:00:00" 1 oddState ⟨"", some (-5), some "expense"⟩).toOption =
      some ({ oddState with transactions :=
          [⟨1, "2024-03-01T00:00:00", "", -5, "expense", some 4, some 1, "posted", none, ""⟩] },
        ⟨1, "2024-03-01T00:00:00", "", -5, "expense", some 4, some 1, "posted", none, ""⟩)) ∧
    (⟨1, "2024-03-01T00:00:00", "", -5, "expense", some 4, some 1, "posted", none,
      ""⟩ : Transaction) ∈
      ({ oddState with transactions :=
        [⟨1, "2024-03-01T00:00:00", "", -5, "expense", some 4, some 1, "posted", none,
          ""⟩] } : State).transactions := by
  decide

/-- C9 amended: provided the default cash/income/expense accounts resolve,
postTransaction fails — persisting nothing, since the handler returns
before any insert — exactly when the amount is non-numeric; every call
with a numeric amount, in particular one with a missing/empty description
or a negative amount, is accepted and its transaction row (carrying that
description and amount) is persisted. -/
theorem claim_C9_amended (now : String) (newId : Nat) (s : State) (inp : TxnInput)
    (hcash : (resolvedCash s).isSome = true)
    (hinc : (s.accounts.find? (fun a => a.type == "income")).isSome = true)
    (hexp : (s.accounts.find? (fun a => a.type == "expense")).isSome = true) :
    ((∃ e, add_transaction now newId s inp = .error e) ↔ inp.amount = none) ∧
    ∀ amt, inp.amount = some amt →
      ∃ s2 t, add_transaction now newId s inp = .ok (s2, t) ∧
        t.description = pyStrip inp.description ∧ t.amount = amt ∧ t ∈ s2.transactions := by
  obtain ⟨cash, hc⟩ := Option.isSome_iff_exists.mp hcash
  obtain ⟨income, hi⟩ := Option.isSome_iff_exists.mp hinc
  obtain ⟨expenses, he⟩ := Option.isSome_iff_exists.mp hexp
  unfold add_transaction
  rcases hamt : inp.amount with _ | amt
  · refine ⟨⟨fun _ => rfl, fun _ => ⟨"Invalid amount", rfl⟩⟩, ?_⟩
    intro amt ha
    exact absurd ha (by simp)
  · rw [hc, hi, he]
    constructor
    · constructor
      · rintro ⟨e, he2⟩
        exact absurd he2 (by simp)
      · intro hn
        exact absurd hn (by simp)
    · intro amt2 ha
      have hae : amt = amt2 := Option.some.inj ha
      subst hae
      refine ⟨_, _, rfl, rfl, rfl, ?_⟩
      exact List.mem_append_right _ (List.mem_singleton.mpr rfl)

/-- Witness for the amended C9 at the call with an empty description and a
negative amount: the default accounts resolve, the call does not fail (its
amount is numeric), and the transaction row is persisted. -/
theorem claim_C9_amended_witness :
    ((resolvedCash oddState).isSome = true) ∧
    ((oddState.accounts.find? (fun a => a.type == "income")).isSome = true) ∧
    ((oddState.accounts.find? (fun a => a.type == "expense")).isSome = true) ∧
    ((∃ e, add_transaction "2024-03-01T00:00:00" 1 oddState
        ⟨"", some (-5), some "expense"⟩ = .error e) ↔
      (⟨"", some (-5), some "expense"⟩ : TxnInput).amount = none) ∧
    ∀ amt, (⟨"", some (-5), some "expense"⟩ : TxnInput).amount = some amt →
      ∃ s2 t, add_transaction "2024-03-01T00:00:00" 1 oddState
          ⟨"", some (-5), some "expense"⟩ = .ok (s2, t) ∧
        t.description = pyStrip (⟨"", some (-5), some "expense"⟩ : TxnInput).description ∧
        t.amount = amt ∧ t ∈ s2.transactions := by
  have h := claim_C9_amended "2024-03-01T00:00:00" 1 oddState
    ⟨"", some (-5), some "expense"⟩ (by decide) (by decide) (by decide)
  exact ⟨by decide, by decide, by decide, h.1, h.2⟩

end TransactionPost

section VoidEntry

/-- C10: voiding an already-void transaction or journal entry succeeds (it
is not rejected), and it is not a pure no-op: the row's voided_at is
overwritten with the current timestamp and voided_reason with the newly
supplied reason, while status remains "void". -/
theorem claim_C10 (now : String) (s : State) (tid jid : Nat) (reason : String)
    (ht : ∃ t ∈ s.transactions, t.id = tid ∧ t.status = "void")
    (hj : ∃ je ∈ s.entries, je.id = jid ∧ je.status = "void") :
    (∃ s2, api_void_transaction now s "T" tid reason = .ok s2 ∧
      ∀ t ∈ s2.transactions, t.id = tid →
        t.status = "void" ∧ t.voided_at = some now ∧ t.voided_reason = reason) ∧
    (∃ s2, api_void_transaction now s "JE" jid reason = .ok s2 ∧
      ∀ je ∈ s2.entries, je.id = jid →
        je.status = "void" ∧ je.voided_at = some now ∧ je.voided_reason = reason) := by
  constructor
  · obtain ⟨t0, ht0, htid, _⟩ := ht
    have hfind : (s.transactions.find? (fun t => t.id == tid)).isSome :=
      List.find?_isSome.mpr ⟨t0, ht0, by simp [htid]⟩
    obtain ⟨tf, htf⟩ := Option.isSome_iff_exists.mp hfind
    refine ⟨{ s with transactions := s.transactions.map (fun t =>
        if t.id = tid then
          { t with
              status := "void"
              voided_at := some now
              voided_reason := reason }
        else t) }, ?_, ?_⟩
    · unfold api_void_transaction
      rw [if_pos rfl, htf]
    · intro t htmem htid2
      obtain ⟨t1, _, ht1eq⟩ := List.mem_map.mp htmem
      by_cases h1 : t1.id = tid
      · rw [if_pos h1] at ht1eq
        rw [← ht1eq]
        exact ⟨rfl, rfl, rfl⟩
      · rw [if_neg h1] at ht1eq
        rw [← ht1eq] at htid2
        exact absurd htid2 h1
  · obtain ⟨je0, hje0, hjid, _⟩ := hj
    have hfind : (s.entries.find? (fun je => je.id == jid)).isSome :=
      List.find?_isSome.mpr ⟨je0, hje0, by simp [hjid]⟩
    obtain ⟨jf, hjf⟩ := Option.isSome_iff_exists.mp hfind
    refine ⟨{ s with entries := s.entries.map (fun je =>
        if je.id = jid then
          { je with
              status := "void"
              voided_at := some now
              voided_reason := reason }
        else je) }, ?_, ?_⟩
    · unfold api_void_transaction
      rw [if_neg (by decide : ¬("JE" : String) = "T"), if_pos rfl, hjf]
    · intro je hjemem hjid2
      obtain ⟨je1, _, hje1eq⟩ := List.mem_map.mp hjemem
      by_cases h1 : je1.id = jid
      · rw [if_pos h1] at hje1eq
        rw [← hje1eq]
        exact ⟨rfl, rfl, rfl⟩
      · rw [if_neg h1] at hje1eq
        rw [← hje1eq] at hjid2
        exact absurd hjid2 h1

/-- Witness for C10 at a store whose transaction 1 and entry 1 are already
void with an older timestamp and reason. -/
theorem claim_C10_witness :
    (∃ t ∈ voidState.transactions, t.id = 1 ∧ t.status = "void") ∧
    (∃ je ∈ voidState.entries, je.id = 1 ∧ je.status = "void") ∧
    ((∃ s2, api_void_transaction "2024-06-01T00:00:00" voidState "T" 1 "again" = .ok s2 ∧
      ∀ t ∈ s2.transactions, t.id = 1 →
        t.status = "void" ∧ t.voided_at = some "2024-06-01T00:00:00" ∧
          t.voided_reason = "again") ∧
    (∃ s2, api_void_transaction "2024-06-01T00:00:00" voidState "JE" 1 "again" = .ok s2 ∧
      ∀ je ∈ s2.entries, je.id = 1 →
        je.status = "void" ∧ je.voided_at = some "2024-06-01T00:00:00" ∧
          je.voided_reason = "again")) := by
  have h1 : ∃ t ∈ voidState.transactions, t.id = 1 ∧ t.status = "void" := by decide
  have h2 : ∃ je ∈ voidState.entries, je.id = 1 ∧ je.status = "void" := by decide
  exact ⟨h1, h2, claim_C10 "2024-06-01T00:00:00" voidState 1 1 "again" h1 h2⟩

end VoidEntry
